import Mathlib

/-!
Verification of the message-translation core of a CI results consumer
(the `resultsdbupdater/utils.py` module).

Python dictionaries are modelled as association lists over a JSON-like
value type `JValue`; Python exceptions (KeyError, TypeError,
AttributeError, ValueError) are modelled with the `Except` monad.  Each
message handler returns the submissions it would perform instead of
issuing HTTP calls; freshly generated UUIDs and the result of the
external group lookup are passed in as parameters.
-/

/-- JSON-like values carried in bus messages (Python objects).
`null` models Python `None`. -/
inductive JValue where
  | null
  | bool (b : Bool)
  | int (n : Int)
  | str (s : String)
  | arr (xs : List JValue)
  | obj (fields : List (String × JValue))

/-- Python exceptions that the handlers can raise. -/
inductive PyErr where
  | keyError (k : String)
  | typeError
  | attributeError
  | valueError

/-- Lookup of a key in an association list (first match), as in a
Python dict (keys are unique in all dictionaries we build). -/
def lookupField : List (String × JValue) → String → Option JValue
  | [], _ => none
  | (k', v) :: rest, k => if k' = k then some v else lookupField rest k

/-- `d[k]` would return `some v`; `none` when the key is absent or the
value is not a dict. -/
def JValue.lookup : JValue → String → Option JValue
  | .obj fs, k => lookupField fs k
  | _, _ => none

/-- Python `d[k]`: raises `KeyError` when the key is absent and
`TypeError` when `d` is not a dict. -/
def JValue.index (v : JValue) (k : String) : Except PyErr JValue :=
  match v with
  | .obj fs =>
    (match lookupField fs k with
     | some x => .ok x
     | none => .error (PyErr.keyError k))
  | _ => .error PyErr.typeError

/-- Python `d.get(k, default)`: returns the stored value (possibly
`None`) when the key is present, the default otherwise; raises
`AttributeError` when `d` is not a dict. -/
def JValue.pyGet (v : JValue) (k : String) (d : JValue) : Except PyErr JValue :=
  match v with
  | .obj fs =>
    .ok (match lookupField fs k with
         | some x => x
         | none => d)
  | _ => .error PyErr.attributeError

/-- Python `k in d` for dicts; raises `TypeError` otherwise. -/
def JValue.hasField (v : JValue) (k : String) : Except PyErr Bool :=
  match v with
  | .obj fs =>
    .ok (match lookupField fs k with
         | some _ => true
         | none => false)
  | _ => .error PyErr.typeError

/-- Python `v == "s"` where the right-hand side is a string literal:
true exactly for an equal string. -/
def JValue.isStrEq (v : JValue) (s : String) : Bool :=
  match v with
  | .str t => t = s
  | _ => false

/-- `v is None` check. -/
def JValue.isNull : JValue → Bool
  | .null => true
  | _ => false

/-- Python truthiness of a value. -/
def truthy : JValue → Bool
  | .null => false
  | .bool b => b
  | .int n => n != 0
  | .str s => s ≠ ""
  | .arr xs => !xs.isEmpty
  | .obj fs => !fs.isEmpty

/-- Python `d[k] = v` on a dict represented as an association list:
replaces the value of an existing key, appends otherwise. -/
def dictSet (fs : List (String × JValue)) (k : String) (v : JValue) :
    List (String × JValue) :=
  if fs.any (fun p => p.1 = k) then
    fs.map (fun p => if p.1 = k then (k, v) else p)
  else fs ++ [(k, v)]

/-- Whether a result-data dict contains a key. -/
def hasKeyB (d : List (String × JValue)) (k : String) : Bool :=
  d.any (fun p => p.1 = k)

/-! ### String primitives

The string methods the source uses (`startswith`, `endswith`, `lower`,
`split`, `int()`) are modelled by structural recursion over the
character list of the string. -/

/-- Whether the first list is a prefix of the second. -/
def prefixB : List Char → List Char → Bool
  | [], _ => true
  | _ :: _, [] => false
  | c :: cs, d :: ds => c = d && prefixB cs ds

/-- Python `s.startswith(t)`. -/
def sStartsWith (s t : String) : Bool :=
  prefixB t.data s.data

/-- Python `s.endswith(t)`. -/
def sEndsWith (s t : String) : Bool :=
  prefixB t.data.reverse s.data.reverse

/-- ASCII lower-casing of one character. -/
def lowerChar (c : Char) : Char :=
  if 'A' ≤ c ∧ c ≤ 'Z' then Char.ofNat (c.toNat + 32) else c

/-- Python `s.lower()` (ASCII). -/
def sToLower (s : String) : String :=
  ⟨s.data.map lowerChar⟩

/-- Splitting a character list at every occurrence of `sep`
(Python `str.split` with a one-character separator). -/
def splitOnChar (sep : Char) : List Char → List (List Char)
  | [] => [[]]
  | c :: rest =>
    let r := splitOnChar sep rest
    if c = sep then [] :: r
    else
      match r with
      | [] => [[c]]
      | seg :: segs => (c :: seg) :: segs

/-- Python `s.split(sep)` for a one-character separator. -/
def sSplitOn (sep : Char) (s : String) : List String :=
  (splitOnChar sep s.data).map (fun l => ⟨l⟩)

/-- Value of a non-empty all-digit character list. -/
def digitsValAux (acc : Nat) : List Char → Option Nat
  | [] => some acc
  | c :: cs =>
    if c.isDigit then digitsValAux (acc * 10 + (c.toNat - '0'.toNat)) cs
    else none

/-- Value of a non-empty all-digit character list; `none` otherwise. -/
def digitsVal : List Char → Option Nat
  | [] => none
  | l => digitsValAux 0 l

/-- Python `int(s)` for a (possibly negative) decimal literal. -/
def sToInt? (s : String) : Option Int :=
  match s.data with
  | '-' :: rest => (digitsVal rest).map (fun n => -(n : Int))
  | l => (digitsVal l).map (fun n => (n : Int))

theorem eval_check_1 : sEndsWith "a.error" ".error" = true := rfl
theorem eval_check_2 : sEndsWith "a.error" ".queued" = false := rfl
theorem eval_check_3 : sStartsWith "dist.rpmdiff.x" "dist.rpmdiff" = true := rfl
theorem eval_check_4 : sToLower "PaSS" = "pass" := rfl
theorem eval_check_5 : sSplitOn '.' "a..b" = ["a", "", "b"] := rfl
theorem eval_check_6 : sSplitOn ',' "" = [""] := rfl
theorem eval_check_7 : sToInt? "12" = some 12 := rfl
theorem eval_check_8 : sToInt? "-3" = some (-3) := rfl
theorem eval_check_9 : sToInt? "x2" = none := rfl

mutual

/-- Python `repr` of a value (used by `str` on containers). -/
def pyRepr : JValue → String
  | .null => "None"
  | .bool true => "True"
  | .bool false => "False"
  | .int n => toString n
  | .str s => "\x27" ++ s ++ "\x27"
  | .arr xs => "[" ++ pyReprList xs ++ "]"
  | .obj fs => "\x7b" ++ pyReprObj fs ++ "\x7d"

/-- Comma-separated `repr`s of list elements. -/
def pyReprList : List JValue → String
  | [] => ""
  | [v] => pyRepr v
  | v :: vs => pyRepr v ++ ", " ++ pyReprList vs

/-- Comma-separated `repr`s of dict entries. -/
def pyReprObj : List (String × JValue) → String
  | [] => ""
  | [(k, v)] => "\x27" ++ k ++ "\x27: " ++ pyRepr v
  | (k, v) :: fs => "\x27" ++ k ++ "\x27: " ++ pyRepr v ++ ", " ++ pyReprObj fs

end

/-- Python `str()` of a value, as used by `"...".format(...)`. -/
def pyStr : JValue → String
  | .str s => s
  | v => pyRepr v

/-- Python `int()` coercion. -/
def pyInt : JValue → Except PyErr Int
  | .int n => .ok n
  | .bool b => .ok (if b then 1 else 0)
  | .str s =>
    (match sToInt? s with
     | some n => .ok n
     | none => .error PyErr.valueError)
  | _ => .error PyErr.typeError

/-- A value that must be a string (an operation such as `.lower()`,
`.split()` or a regex match is applied to it). -/
def asStr : JValue → Except PyErr String
  | .str s => .ok s
  | _ => .error PyErr.typeError

/-- Python `s.rstrip` specialised to stripping trailing `/`. -/
def rstripSlash (s : String) : String :=
  ⟨(s.data.reverse.dropWhile (fun c => c = '/')).reverse⟩

/-! ## `update_publisher_id` (utils.py lines 21-28) -/

/-- `update_publisher_id(data, msg)`: sets `data['publisher_id']` to the
message publisher ID (header `JMSXUserID`) if it is truthy. -/
def update_publisher_id (data : List (String × JValue)) (msg : JValue) :
    Except PyErr (List (String × JValue)) := do
  let headers ← msg.index "headers"
  let pid ← headers.pyGet "JMSXUserID" .null
  if truthy pid then
    pure (dictSet data "publisher_id" pid)
  else
    pure data

/-! ## Outcome classifier `_test_result_outcome` (utils.py lines 202-224) -/

/-- `_test_result_outcome(message)`: FAILED/QUEUED/RUNNING from the topic
suffix, otherwise `body.msg.status` lower-cased through the
`broken_mapping` dictionary, unmapped values passed through unchanged. -/
def test_result_outcome (msg : JValue) : Except PyErr String := do
  let topic ← asStr (← msg.index "topic")
  if sEndsWith topic ".error" then
    pure "FAILED"
  else if sEndsWith topic ".queued" then
    pure "QUEUED"
  else if sEndsWith topic ".running" then
    pure "RUNNING"
  else
    let status ← (← (← msg.index "body").index "msg").index "status"
    let outcome ← (match status with
      | .str s => Except.ok s
      | _ => Except.error PyErr.attributeError)
    let low := sToLower outcome
    if low = "pass" then pure "PASSED"
    else if low = "fail" then pure "FAILED"
    else if low = "failure" then pure "FAILED"
    else pure outcome

/-! ## Topic / namespace validation (utils.py lines 227-310) -/

/-- `namespace_from_topic(topic)`: component index 3 of a
`/topic/VirtualTopic.eng.ci.` topic with exactly 7 dot-separated
components, `None` otherwise. -/
def namespace_from_topic (topic : String) : Option String :=
  if sStartsWith topic "/topic/VirtualTopic.eng.ci." then
    let comps := sSplitOn '.' topic
    if comps.length = 7 then some (comps.getD 3 "") else none
  else
    none

/-- `namespace_from_testcase_name(testcase_name)`: the component before
the first dot. -/
def namespace_from_testcase_name (testcase_name : String) : String :=
  (sSplitOn '.' testcase_name).headD ""

/-- `verify_topic_and_testcase_name(topic, testcase_name)`.  Note that
the source tests `if not topic_namespace:`, so a structured topic whose
namespace component is the *empty string* is also treated as an old
topic (Python falsiness), not compared against the test case name. -/
def verify_topic_and_testcase_name (topic testcase_name : String) : Bool :=
  match namespace_from_topic topic with
  | none => true
  | some ns =>
    if ns = "" then true
    else if namespace_from_testcase_name testcase_name ≠ ns then false
    else true

/-! ## `nsvc` parsing for redhat-module artifacts (utils.py lines 420-436)

The source applies `re.match("^(.*):(.*):(.*):(.*)", nsvc)`.  `.` does
not match a newline, and `.*` is greedy, so the regex matches exactly
when the part of the string before the first newline contains at least
three colons, and the four groups are obtained by splitting that part at
its *last* three colons (the first group takes everything it can). -/

/-- Splits `cs` as `a ++ ':' :: b` at the *last* colon, `b` colon-free;
`none` when there is no colon. -/
def splitLastColon (cs : List Char) : Option (List Char × List Char) :=
  if ((cs.reverse.takeWhile (fun c => c ≠ ':')).length = cs.reverse.length) then
    none
  else
    some ((cs.reverse.drop
            ((cs.reverse.takeWhile (fun c => c ≠ ':')).length + 1)).reverse,
          (cs.reverse.takeWhile (fun c => c ≠ ':')).reverse)

/-- The four groups of `re.match("^(.*):(.*):(.*):(.*)", s)`: the part
of the string before the first newline is split at its last three
colons (`p1.2` is the context, `p2.2` the version, `p3.1`/`p3.2` the
name and stream). -/
def nsvcMatch (s : String) : Option (String × String × String × String) :=
  (splitLastColon (s.data.takeWhile (fun c => c ≠ '\n'))).bind (fun p1 =>
    (splitLastColon p1.1).bind (fun p2 =>
      (splitLastColon p2.1).map (fun p3 =>
        (⟨p3.1⟩, ⟨p3.2⟩, ⟨p2.2⟩, ⟨p1.2⟩))))

/-- `stream.replace('-', '_')`: pattern and replacement are single
characters, so this is a character map. -/
def replaceDash (s : String) : String :=
  ⟨s.data.map (fun c => if c = '-' then '_' else c)⟩

/-- `'{}-{}-{}.{}'.format(name, stream.replace('-', '_'), version,
context)` — the item string built for a redhat-module artifact. -/
def mkNsvcItem : String × String × String × String → String
  | (name, stream, version, context) =>
    name ++ "-" ++ replaceDash stream ++ "-" ++ version ++ "." ++ context

/-- The item a redhat-module artifact's `nsvc` field is turned into;
`none` when the regex does not match (the message is then skipped). -/
def redhat_module_item (s : String) : Option String :=
  (nsvcMatch s).map mkNsvcItem

theorem eval_check_10 : nsvcMatch "n:s:v:c" = some ("n", "s", "v", "c") := rfl
theorem eval_check_11 : nsvcMatch "a:b:s:v:c" = some ("a:b", "s", "v", "c") := rfl
theorem eval_check_12 : nsvcMatch "a:b:c" = none := rfl
theorem eval_check_13 : nsvcMatch "a\nb:s:v:c" = none := rfl
theorem eval_check_14 : redhat_module_item "m:st-x:1:c0" = some "m-st_x-1.c0" := rfl

/-! ## `handle_ci_umb` (utils.py lines 313-512) -/

/-- One `create_result` call issued by `handle_ci_umb`.  The group list
of the source is `[{'uuid': group_uuid, 'url': group_url}]`. -/
structure UmbSubmission where
  testcase_name : String
  testcase_ref_url : JValue
  outcome : String
  ref_url : JValue
  data : List (String × JValue)
  group_uuid : String
  group_url : JValue

/-- Result of `handle_ci_umb`: a submission, or a skip (returning
`False` for an invalid nsvc, `None` for a topic-namespace mismatch). -/
inductive UmbResult where
  | submitted (s : UmbSubmission)
  | skippedInvalidNsvc
  | skippedNamespace

/-- `system = msg_body.get('system', {})` normalisation: sometimes a
dict, sometimes a list of one system dict (utils.py lines 327-332). -/
def normalize_system (v : JValue) : JValue :=
  match v with
  | .arr xs => xs.headD (.obj [])
  | _ => v

/-- result_data of the `productmd-compose` variant (utils.py lines
334-361): a dict comprehension keeping only pairs whose value is not
`None`. -/
def productmd_compose_data (msg_body system artifact item_type_v : JValue) :
    Except PyErr (List (String × JValue)) := do
  let architecture ← system.index "architecture"
  let variant ← system.pyGet "variant" .null
  let id0 ← artifact.pyGet "id" .null
  let compose_id ← (if truthy id0 then pure id0 else artifact.index "compose_id")
  let item := pyStr compose_id ++ "/" ++
    (if truthy variant then pyStr variant else "unknown") ++ "/" ++ pyStr architecture
  let ci ← msg_body.index "ci"
  let run ← msg_body.index "run"
  let pairs : List (String × JValue) := [
    ("item", .str item),
    ("ci_name", ← ci.index "name"),
    ("ci_team", ← ci.index "team"),
    ("ci_url", ← ci.index "url"),
    ("ci_irc", ← ci.pyGet "irc" .null),
    ("ci_email", ← ci.index "email"),
    ("log", ← run.index "log"),
    ("type", item_type_v),
    ("productmd.compose.id", compose_id),
    ("system_provider", ← system.index "provider"),
    ("system_architecture", architecture),
    ("system_variant", variant),
    ("category", ← msg_body.pyGet "category" .null)]
  pure (pairs.filter (fun p => !p.2.isNull))

/-- result_data of the `component-version` variant (utils.py lines
362-384). -/
def component_version_data (msg_body artifact item_type_v : JValue) :
    Except PyErr (List (String × JValue)) := do
  let component ← artifact.index "component"
  let version ← artifact.index "version"
  let item := pyStr component ++ "-" ++ pyStr version
  let ci ← msg_body.index "ci"
  let run ← msg_body.index "run"
  let pairs : List (String × JValue) := [
    ("item", .str item),
    ("ci_name", ← ci.index "name"),
    ("ci_team", ← ci.index "team"),
    ("ci_url", ← ci.index "url"),
    ("ci_irc", ← ci.pyGet "irc" .null),
    ("ci_email", ← ci.index "email"),
    ("log", ← run.index "log"),
    ("type", item_type_v),
    ("component", component),
    ("version", version),
    ("category", ← msg_body.pyGet "category" .null)]
  pure (pairs.filter (fun p => !p.2.isNull))

/-- result_data of the `container-image` variant (utils.py lines
385-419).  Note that `item` is built from unconditional lookups of
`repository` and `digest` even though the comprehension below reads the
same keys with `.get`. -/
def container_image_data (msg_body system artifact item_type_v : JValue) :
    Except PyErr (List (String × JValue)) := do
  let repo ← artifact.index "repository"
  let digest ← artifact.index "digest"
  let item := pyStr repo ++ "@" ++ pyStr digest
  let ci ← msg_body.index "ci"
  let run ← msg_body.index "run"
  let pairs : List (String × JValue) := [
    ("item", .str item),
    ("ci_name", ← ci.index "name"),
    ("ci_team", ← ci.index "team"),
    ("ci_url", ← ci.index "url"),
    ("ci_irc", ← ci.pyGet "irc" .null),
    ("ci_environment", ← ci.pyGet "environment" .null),
    ("ci_email", ← ci.index "email"),
    ("log", ← run.index "log"),
    ("rebuild", ← run.pyGet "rebuild" .null),
    ("xunit", ← msg_body.pyGet "xunit" .null),
    ("type", item_type_v),
    ("repository", ← artifact.pyGet "repository" .null),
    ("digest", ← artifact.pyGet "digest" .null),
    ("format", ← artifact.pyGet "format" .null),
    ("pull_ref", ← artifact.pyGet "pull_ref" .null),
    ("scratch", ← artifact.pyGet "scratch" .null),
    ("nvr", ← artifact.pyGet "nvr" .null),
    ("issuer", ← artifact.pyGet "issuer" .null),
    ("system_os", ← system.pyGet "os" .null),
    ("system_provider", ← system.pyGet "provider" .null),
    ("system_architecture", ← system.pyGet "architecture" .null),
    ("category", ← msg_body.pyGet "category" .null)]
  pure (pairs.filter (fun p => !p.2.isNull))

/-- result_data of the `redhat-module` variant (utils.py lines 420-458):
`none` when the nsvc regex does not match (`return False` in the
source); a plain dict literal otherwise — values read with `.get` may be
`None` and are *not* filtered out. -/
def redhat_module_data (msg_body system artifact item_type_v : JValue) :
    Except PyErr (Option (List (String × JValue))) := do
  let ci ← msg_body.index "ci"
  let nsvc_raw ← artifact.index "nsvc"
  let nsvc_s ← asStr nsvc_raw
  match nsvcMatch nsvc_s with
  | none => pure none
  | some parts =>
    let nsvc := mkNsvcItem parts
    let run ← msg_body.index "run"
    pure (some [
      ("item", .str nsvc),
      ("type", item_type_v),
      ("mbs_id", ← artifact.pyGet "id" .null),
      ("category", ← msg_body.index "category"),
      ("context", ← artifact.index "context"),
      ("name", ← artifact.index "name"),
      ("nsvc", .str nsvc),
      ("stream", ← artifact.index "stream"),
      ("version", ← artifact.index "version"),
      ("issuer", ← artifact.pyGet "issuer" .null),
      ("rebuild", ← run.pyGet "rebuild" .null),
      ("log", ← run.index "log"),
      ("system_os", ← system.pyGet "os" .null),
      ("system_provider", ← system.pyGet "provider" .null),
      ("ci_name", ← ci.pyGet "name" .null),
      ("ci_url", ← ci.pyGet "url" .null),
      ("ci_team", ← ci.pyGet "team" .null),
      ("ci_irc", ← ci.pyGet "irc" .null),
      ("ci_email", ← ci.pyGet "email" .null)])

/-- result_data of the default variant (utils.py lines 459-494),
including the scratch-flag coercion (a bool, or a string compared
case-insensitively against "true") and the `_scratch` type suffix. -/
def default_artifact_data (msg_body system artifact item_type_v : JValue) :
    Except PyErr (List (String × JValue)) := do
  let ci ← msg_body.index "ci"
  let item ← artifact.index "nvr"
  let component ← artifact.index "component"
  let scratch_raw ← artifact.pyGet "scratch" (.str "")
  let brew_task_id ← artifact.pyGet "id" .null
  let scratch : Bool ← (match scratch_raw with
    | .bool b => Except.ok b
    | .str s => Except.ok (sToLower s = "true")
    | _ => Except.error PyErr.attributeError)
  let item_type2 : JValue ← (if scratch then do
      let t ← asStr item_type_v
      pure (JValue.str (t ++ "_scratch"))
    else
      pure item_type_v)
  let run ← msg_body.index "run"
  pure [
    ("item", item),
    ("type", item_type2),
    ("brew_task_id", brew_task_id),
    ("category", ← msg_body.index "category"),
    ("component", component),
    ("scratch", .bool scratch),
    ("issuer", ← artifact.pyGet "issuer" .null),
    ("rebuild", ← run.pyGet "rebuild" .null),
    ("log", ← run.index "log"),
    ("system_os", ← system.pyGet "os" .null),
    ("system_provider", ← system.pyGet "provider" .null),
    ("ci_name", ← ci.pyGet "name" .null),
    ("ci_url", ← ci.pyGet "url" .null),
    ("ci_environment", ← ci.pyGet "environment" .null),
    ("ci_team", ← ci.pyGet "team" .null),
    ("ci_irc", ← ci.pyGet "irc" .null),
    ("ci_email", ← ci.pyGet "email" .null)]

/-! ## rpmdiff URL collapsing (utils.py lines 515-532)

The source applies
`re.match(r'^(?P<url_prefix>http.+\/run\/)(?P<run>\d+)(?:\/)?(?P<result>\d+)?$', ref_url)`.
`.` does not match a newline and `$` also matches just before a trailing
newline.  After the literal `/run/` the rest of the string must be a
non-empty digit run, optionally followed by `/` and an optional second
digit run, optionally ending in one final newline.  Because such a tail
contains no letter, at most one occurrence of `/run/` in the string can
be followed by a valid tail, and the greedy `.+` selects the rightmost
occurrence whose tail matches.  The prefix before that occurrence must
start with `http`, be at least 5 characters long and contain no
newline. -/

/-- `$`-acceptance: end of string or a single trailing newline. -/
def endOk : List Char → Bool
  | [] => true
  | [c] => c = '\n'
  | _ => false

/-- Whether `cs` matches `(\d+)(?:\/)?(\d+)?$`: a non-empty digit run,
optionally a `/` and a second digit run, then the end. -/
def validTail (cs : List Char) : Bool :=
  !(cs.takeWhile Char.isDigit).isEmpty &&
    (endOk (cs.drop (cs.takeWhile Char.isDigit).length) ||
      (match cs.drop (cs.takeWhile Char.isDigit).length with
       | '/' :: r2 => endOk (r2.drop (r2.takeWhile Char.isDigit).length)
       | _ => false))

/-- The rest of the list after a leading `/run/`, when present. -/
def startsRun : List Char → Option (List Char)
  | '/' :: 'r' :: 'u' :: 'n' :: '/' :: rest => some rest
  | _ => none

/-- Rightmost decomposition `cs = x ++ "/run/" ++ tail` with
`validTail tail`; returns `(x, tail)`. -/
def scanRun : List Char → Option (List Char × List Char)
  | [] => none
  | c :: rest =>
    match scanRun rest with
    | some (x, y) => some (c :: x, y)
    | none =>
      match startsRun (c :: rest) with
      | some tail => if validTail tail then some ([], tail) else none
      | none => none

/-- The collapsed group URL `url_prefix + run` produced by the rpmdiff
regex, or `none` when the regex does not match.  The prefix before the
chosen `/run/` must match `http.+`: it starts with `http`, has at least
one more character, and `.` does not match the newline. -/
def rpmdiffCollapse (s : String) : Option String :=
  (scanRun s.data).bind (fun xt =>
    if prefixB "http".data xt.1 ∧ 4 < xt.1.length ∧ '\n' ∉ xt.1.drop 4 then
      some (⟨xt.1⟩ ++ "/run/" ++ ⟨xt.2.takeWhile Char.isDigit⟩)
    else none)

theorem eval_check_15 : rpmdiffCollapse "http://rd/run/123/456" = some "http://rd/run/123" := rfl
theorem eval_check_16 : rpmdiffCollapse "http://rd/run/123" = some "http://rd/run/123" := rfl
theorem eval_check_17 : rpmdiffCollapse "http://rd/run/123/" = some "http://rd/run/123" := rfl
theorem eval_check_18 : rpmdiffCollapse "http://rd/run/1/run/23/4" = some "http://rd/run/1/run/23" := rfl
theorem eval_check_19 : rpmdiffCollapse "http://rd/run/x23" = none := rfl
theorem eval_check_20 : rpmdiffCollapse "ftp://rd/run/123" = none := rfl
theorem eval_check_21 : rpmdiffCollapse "http://rd/job/123" = none := rfl

/-- `_construct_testcase_dict(msg)` (utils.py lines 191-199): the
testcase name `namespace.type.category` and its `ref_url`. -/
def construct_testcase_dict (m : JValue) : Except PyErr (String × JValue) := do
  let ns ← m.pyGet "namespace" (.str "unknown")
  let ty ← m.pyGet "type" (.str "unknown")
  let cat ← m.pyGet "category" (.str "unknown")
  let name := (← asStr ns) ++ "." ++ (← asStr ty) ++ "." ++ (← asStr cat)
  let ci ← m.index "ci"
  let url ← ci.index "url"
  pure (name, url)

/-- `handle_ci_umb(msg)`.  `freshUuid` stands for the single
`str(uuid.uuid4())` the source generates for the group. -/
def handle_ci_umb (freshUuid : String) (msg : JValue) :
    Except PyErr UmbResult := do
  let headers ← msg.index "headers"
  let _msg_id ← headers.index "message-id"
  let msg_body ← (← msg.index "body").index "msg"
  let artifact ← msg_body.index "artifact"
  let item_type_v ← artifact.index "type"
  let run ← msg_body.index "run"
  let test_run_url ← run.index "url"
  let outcome ← test_result_outcome msg
  let system_raw ← msg_body.pyGet "system" (.obj [])
  let system := normalize_system system_raw
  let rd ← (
    if item_type_v.isStrEq "productmd-compose" then do
      let d ← productmd_compose_data msg_body system artifact item_type_v
      pure (some d)
    else if item_type_v.isStrEq "component-version" then do
      let d ← component_version_data msg_body artifact item_type_v
      pure (some d)
    else if item_type_v.isStrEq "container-image" then do
      let d ← container_image_data msg_body system artifact item_type_v
      pure (some d)
    else if item_type_v.isStrEq "redhat-module" then
      redhat_module_data msg_body system artifact item_type_v
    else do
      let d ← default_artifact_data msg_body system artifact item_type_v
      pure (some d))
  match rd with
  | none => pure .skippedInvalidNsvc
  | some result_data =>
    let recipients ← msg_body.pyGet "recipients" (.arr [])
    let result_data := dictSet result_data "recipients" recipients
    let result_data ← update_publisher_id result_data msg
    let testcase ← construct_testcase_dict msg_body
    let topic ← asStr (← msg.index "topic")
    if verify_topic_and_testcase_name topic testcase.1 then
      pure (.submitted {
        testcase_name := testcase.1,
        testcase_ref_url := testcase.2,
        outcome := outcome,
        ref_url := test_run_url,
        data := result_data,
        group_uuid := freshUuid,
        group_url := test_run_url })
    else
      pure .skippedNamespace


/-! ## `handle_ci_metrics` (utils.py lines 107-188) -/

/-- One `create_result` call issued by `handle_ci_metrics`.  The group
list of the source is `[{'uuid': group_uuid, 'ref_url': group_ref_url}]`
and is built once, before the loop, so every submission of one message
carries the same group. -/
structure CiSubmission where
  testcase_name : String
  testcase_ref_url : JValue
  outcome : String
  ref_url : String
  data : List (String × JValue)
  group_uuid : String
  group_ref_url : JValue

/-- The per-message context threaded through the sub-test loop of
`handle_ci_metrics`. -/
structure CiCtx where
  msg : JValue
  team : JValue
  test_name : JValue
  testcase_url : JValue
  group_tests_ref_url : String
  component : JValue
  test_type : String
  recipients : JValue
  ci_tier : JValue
  artifact : JValue
  brew_task_id : JValue
  freshUuid : String
  group_ref_url : JValue

/-- Outcome of one sub-test record (utils.py lines 150-153): PASSED when
a `failed` key is present and `int(...)` of it is zero, FAILED
otherwise. -/
def subtest_outcome (test : JValue) : Except PyErr String := do
  let hasFailed ← test.hasField "failed"
  if hasFailed then
    let n ← pyInt (← test.index "failed")
    if n = 0 then pure "PASSED" else pure "FAILED"
  else
    pure "FAILED"

/-- The submission built for one sub-test record (utils.py lines
149-170): the record itself becomes the result data, extended with the
item/type/recipient fields. -/
def ci_subtest_submission (ctx : CiCtx) (test : JValue) :
    Except PyErr CiSubmission := do
  let outcome ← subtest_outcome test
  let executor ← test.pyGet "executor" (.str "unknown")
  let tc_name := pyStr ctx.team ++ "." ++ pyStr ctx.test_name ++ "." ++ pyStr executor
  let tfields ← (match test with
    | .obj fs => Except.ok fs
    | _ => Except.error PyErr.typeError)
  let d := dictSet tfields "item" ctx.component
  let d := dictSet d "type" (.str ctx.test_type)
  let d := dictSet d "recipients" ctx.recipients
  let d := dictSet d "CI_tier" ctx.ci_tier
  let d := dictSet d "job_name" ctx.test_name
  let d := dictSet d "artifact" ctx.artifact
  let d := dictSet d "brew_task_id" ctx.brew_task_id
  let d ← update_publisher_id d ctx.msg
  pure {
    testcase_name := tc_name,
    testcase_ref_url := ctx.testcase_url,
    outcome := outcome,
    ref_url := ctx.group_tests_ref_url,
    data := d,
    group_uuid := ctx.freshUuid,
    group_ref_url := ctx.group_ref_url }

/-- The sub-test loop of `handle_ci_metrics`; the Boolean accumulates
whether any sub-test outcome was FAILED (`overall_outcome`). -/
def process_tests (ctx : CiCtx) : List JValue →
    Except PyErr (List CiSubmission × Bool)
  | [] => .ok ([], false)
  | t :: ts => do
    let sub ← ci_subtest_submission ctx t
    let (subs, anyFailed) ← process_tests ctx ts
    pure (sub :: subs, (sub.outcome = "FAILED" : Bool) || anyFailed)

/-- `handle_ci_metrics(msg)`: one submission per sub-test plus the
aggregate submission, in source order. -/
def handle_ci_metrics (freshUuid : String) (msg : JValue) :
    Except PyErr (List CiSubmission) := do
  let headers ← msg.index "headers"
  let _msg_id ← headers.index "message-id"
  let m ← (← msg.index "body").index "msg"
  let team ← m.pyGet "team" (.str "unassigned")
  let hasJobName ← m.hasField "job_name"
  let test_name ← (if hasJobName then m.index "job_name" else m.index "job_names")
  let testcase_url ← m.index "jenkins_job_url"
  let group_ref_url ← m.index "jenkins_build_url"
  let build_type ← m.pyGet "build_type" (.str "unknown")
  let artifact ← m.pyGet "artifact" (.str "unknown")
  let brew_task_id ← m.pyGet "brew_task_id" (.str "unknown")
  let tests ← m.index "tests"
  let gurl ← asStr group_ref_url
  let group_tests_ref_url := rstripSlash gurl ++ "/console"
  let component ← m.pyGet "component" (.str "unknown")
  let recipients_s ← asStr (← m.pyGet "recipients" (.str "unknown"))
  let recipients := JValue.arr ((sSplitOn ',' recipients_s).map JValue.str)
  let ci_tier ← m.pyGet "CI_tier" (.arr [.str "unknown"])
  let tt1 := if !(brew_task_id.isStrEq "unknown") then "koji_build" else "unknown"
  let test_type := if build_type.isStrEq "scratch" then tt1 ++ "_scratch" else tt1
  let tlist ← (match tests with
    | .arr xs => Except.ok xs
    | _ => Except.error PyErr.typeError)
  let ctx : CiCtx := {
    msg, team, test_name, testcase_url, group_tests_ref_url, component,
    test_type, recipients, ci_tier, artifact, brew_task_id, freshUuid,
    group_ref_url }
  let (subs, anyFailed) ← process_tests ctx tlist
  let overall := if anyFailed then "FAILED" else "PASSED"
  let agg_name := pyStr team ++ "." ++ pyStr test_name
  let rdata : List (String × JValue) := [
    ("item", component),
    ("type", .str test_type),
    ("recipients", recipients),
    ("CI_tier", ci_tier),
    ("job_name", test_name),
    ("artifact", artifact),
    ("brew_task_id", brew_task_id)]
  let rdata ← update_publisher_id rdata msg
  pure (subs ++ [{
    testcase_name := agg_name,
    testcase_ref_url := testcase_url,
    outcome := overall,
    ref_url := group_tests_ref_url,
    data := rdata,
    group_uuid := freshUuid,
    group_ref_url := group_ref_url }])

/-! ## `handle_resultsdb_format` (utils.py lines 515-575) -/

/-- One `create_result` call issued by `handle_resultsdb_format`.  In
bulk mode the group is `{'uuid': …, 'ref_url': …}`; in single mode it
additionally carries a `description` equal to the group `ref_url`. -/
structure RdbSubmission where
  testcase : JValue
  outcome : JValue
  ref_url : JValue
  data : List (String × JValue)
  note : JValue
  group_uuid : String
  group_ref_url : JValue
  group_description : Option JValue

/-- `mapM` for `Except`, written by structural recursion (the source
iterates the `results` dict sequentially). -/
def mapMExc (f : α → Except PyErr β) : List α → Except PyErr (List β)
  | [] => .ok []
  | a :: as => do
    let b ← f a
    let bs ← mapMExc f as
    pure (b :: bs)

/-- `handle_resultsdb_format(msg)`.  `freshUuid` stands for
`str(uuid.uuid4())`; `existingGroupUuid` is the uuid of the first group
returned by the external `get_first_group` lookup of single mode, when
one exists. -/
def handle_resultsdb_format (freshUuid : String)
    (existingGroupUuid : Option String) (msg : JValue) :
    Except PyErr (List RdbSubmission) := do
  let m ← (← msg.index "body").index "msg"
  let ref_url_v ← m.index "ref_url"
  let tcv ← m.pyGet "testcase" (.obj [])
  let name_v ← tcv.pyGet "name" (.str "")
  let name_s ← (match name_v with
    | .str s => Except.ok s
    | _ => Except.error PyErr.attributeError)
  let group_ref_url ← (
    if sStartsWith name_s "dist.rpmdiff" then do
      let ru ← asStr ref_url_v
      match rpmdiffCollapse ru with
      | some c => pure (JValue.str c)
      | none => Except.error PyErr.valueError
    else
      pure ref_url_v)
  let resultsv ← m.pyGet "results" .null
  if truthy resultsv then
    let rfields ← (match resultsv with
      | .obj fs => Except.ok fs
      | _ => Except.error PyErr.attributeError)
    mapMExc (fun p => do
      let res := p.2
      let data_v ← res.pyGet "data" (.obj [])
      let dfields ← (match data_v with
        | .obj fs => Except.ok fs
        | _ => Except.error PyErr.typeError)
      let dfields ← update_publisher_id dfields msg
      let outc ← res.index "outcome"
      let rurl ← res.pyGet "ref_url" (.str "")
      let note ← res.pyGet "note" (.str "")
      pure ({
        testcase := JValue.str p.1,
        outcome := outc,
        ref_url := rurl,
        data := dfields,
        note := note,
        group_uuid := freshUuid,
        group_ref_url := group_ref_url,
        group_description := none } : RdbSubmission)) rfields
  else
    let guuid := existingGroupUuid.getD freshUuid
    let data_v ← m.index "data"
    let dfields ← (match data_v with
      | .obj fs => Except.ok fs
      | _ => Except.error PyErr.typeError)
    let dfields ← update_publisher_id dfields msg
    let tc ← m.index "testcase"
    let outc ← m.index "outcome"
    let rurl ← m.index "ref_url"
    let note ← m.pyGet "note" (.str "")
    pure [{
      testcase := tc,
      outcome := outc,
      ref_url := rurl,
      data := dfields,
      note := note,
      group_uuid := guuid,
      group_ref_url := group_ref_url,
      group_description := some group_ref_url }]

/-! ### Observations of the opening steps of `handle_resultsdb_format`

These read the same fields the handler reads first, so that properties
of the rpmdiff special case can be stated about arbitrary messages. -/

/-- The `msg[\x27body\x27][\x27msg\x27]` lookup that opens
`handle_resultsdb_format`. -/
def rdb_msg (msg : JValue) : Except PyErr JValue :=
  (msg.index "body").bind (fun b => b.index "msg")

/-- The testcase name the handler extracts,
`msg_body.get(\x27testcase\x27, \x7b\x7d).get(\x27name\x27, \x27\x27)`,
when that evaluates to a string. -/
def rdb_testcase_name (msg : JValue) : Option String :=
  match rdb_msg msg with
  | .ok m =>
    (match m.pyGet "testcase" (.obj []) with
     | .ok tcv =>
       (match tcv.pyGet "name" (.str "") with
        | .ok (.str s) => some s
        | _ => none)
     | _ => none)
  | _ => none

/-- The message-level `ref_url` field, when it is a string. -/
def rdb_ref_url (msg : JValue) : Option String :=
  match rdb_msg msg with
  | .ok m =>
    (match m.index "ref_url" with
     | .ok v => (match asStr v with | .ok s => some s | _ => none)
     | _ => none)
  | _ => none

/-! ## Basic lemmas about the dictionary model -/

theorem index_ok_iff_lookup {v : JValue} {k : String} {x : JValue} :
    v.index k = .ok x ↔ v.lookup k = some x := by
  cases v <;> simp [JValue.index, JValue.lookup]
  cases h : lookupField _ k <;> simp [h]

theorem hasKeyB_iff {d : List (String × JValue)} {k : String} :
    hasKeyB d k = true ↔ ∃ v, (k, v) ∈ d := by
  simp only [hasKeyB, List.any_eq_true, decide_eq_true_eq]
  constructor
  · rintro ⟨⟨k', v⟩, hm, he⟩
    exact ⟨v, by rw [show k = k' from he.symm]; exact hm⟩
  · rintro ⟨v, hm⟩
    exact ⟨(k, v), hm, rfl⟩

theorem hasKeyB_dictSet_self (d : List (String × JValue)) (k : String)
    (v : JValue) : hasKeyB (dictSet d k v) k = true := by
  unfold dictSet
  split
  · rename_i h
    rcases List.any_eq_true.mp h with ⟨p, hp, he⟩
    simp only [decide_eq_true_eq] at he
    exact hasKeyB_iff.mpr ⟨v, List.mem_map.mpr ⟨p, hp, by simp [he]⟩⟩
  · exact hasKeyB_iff.mpr ⟨v, by simp⟩

theorem hasKeyB_dictSet_of {d : List (String × JValue)} {k' : String}
    (k : String) (v : JValue) (h : hasKeyB d k' = true) :
    hasKeyB (dictSet d k v) k' = true := by
  unfold dictSet
  split
  · rename_i hany
    by_cases hk : k' = k
    · subst hk
      rcases List.any_eq_true.mp hany with ⟨p, hp, he⟩
      simp only [decide_eq_true_eq] at he
      exact hasKeyB_iff.mpr ⟨v, List.mem_map.mpr ⟨p, hp, by simp [he]⟩⟩
    · rcases hasKeyB_iff.mp h with ⟨w, hw⟩
      refine hasKeyB_iff.mpr ⟨w, List.mem_map.mpr ⟨(k', w), hw, ?_⟩⟩
      simp [hk]
  · rcases hasKeyB_iff.mp h with ⟨w, hw⟩
    exact hasKeyB_iff.mpr ⟨w, List.mem_append_left _ hw⟩

theorem mem_dictSet_nonnull {d : List (String × JValue)} {k : String}
    {v : JValue} (hd : ∀ p ∈ d, JValue.isNull p.2 = false)
    (hv : JValue.isNull v = false) :
    ∀ p ∈ dictSet d k v, JValue.isNull p.2 = false := by
  intro p hp
  unfold dictSet at hp
  split at hp
  · rcases List.mem_map.mp hp with ⟨q, hq, he⟩
    by_cases hqk : q.1 = k
    · rw [if_pos hqk] at he
      rw [← he]
      exact hv
    · rw [if_neg hqk] at he
      exact he ▸ hd q hq
  · rcases List.mem_append.mp hp with hq | hq
    · exact hd p hq
    · simp only [List.mem_singleton] at hq
      rw [hq]
      exact hv

theorem update_publisher_id_inv {d d' : List (String × JValue)} {msg : JValue}
    (h : update_publisher_id d msg = .ok d') :
    d' = d ∨ ∃ pid, truthy pid = true ∧ d' = dictSet d "publisher_id" pid := by
  unfold update_publisher_id at h
  simp only [bind, Except.bind] at h
  split at h
  · exact Except.noConfusion h
  · split at h
    · exact Except.noConfusion h
    · rename_i pid hpid
      split at h
      · rename_i htr
        simp only [pure, Except.pure, Except.ok.injEq] at h
        exact Or.inr ⟨pid, htr, h.symm⟩
      · simp only [pure, Except.pure, Except.ok.injEq] at h
        exact Or.inl h.symm

theorem truthy_nonnull {v : JValue} (h : truthy v = true) :
    JValue.isNull v = false := by
  cases v <;> simp_all [truthy, JValue.isNull]

theorem update_publisher_id_keys {d d' : List (String × JValue)}
    {msg : JValue} {k : String} (h : update_publisher_id d msg = .ok d')
    (hk : hasKeyB d k = true) : hasKeyB d' k = true := by
  rcases update_publisher_id_inv h with he | ⟨pid, _, he⟩
  · exact he ▸ hk
  · exact he ▸ hasKeyB_dictSet_of _ _ hk

theorem update_publisher_id_nonnull {d d' : List (String × JValue)}
    {msg : JValue} (h : update_publisher_id d msg = .ok d')
    (hd : ∀ p ∈ d, JValue.isNull p.2 = false) :
    ∀ p ∈ d', JValue.isNull p.2 = false := by
  rcases update_publisher_id_inv h with he | ⟨pid, htr, he⟩
  · exact he ▸ hd
  · exact he ▸ mem_dictSet_nonnull hd (truthy_nonnull htr)

/-! ## Message constructors used in the theorem statements -/

/-- A bus message: `{topic, headers, body}`. -/
def mkMsg (topic headers body : JValue) : JValue :=
  .obj [("topic", topic), ("headers", headers), ("body", body)]

/-! ## Claim C1: the outcome classifier -/

/-- **C1.** For every message, the outcome classifier returns FAILED
when the topic ends with `.error` (regardless of body), QUEUED when it
ends with `.queued`, RUNNING when it ends with `.running`; otherwise it
reads `body.msg.status` and, after lower-casing, maps `pass` to PASSED
and `fail`/`failure` to FAILED, while any other status value is
returned unchanged with its original casing; if no topic suffix matched
and `status` is absent, classification fails with a lookup error
(KeyError). -/
theorem C1_outcome_classifier (t : String) (b : JValue)
    (fields : List (String × JValue)) (st : String) :
    (sEndsWith t ".error" = true →
      test_result_outcome (mkMsg (.str t) b (.obj [("msg", .obj fields)])) =
        .ok "FAILED")
    ∧ (sEndsWith t ".error" = false → sEndsWith t ".queued" = true →
      test_result_outcome (mkMsg (.str t) b (.obj [("msg", .obj fields)])) =
        .ok "QUEUED")
    ∧ (sEndsWith t ".error" = false → sEndsWith t ".queued" = false →
      sEndsWith t ".running" = true →
      test_result_outcome (mkMsg (.str t) b (.obj [("msg", .obj fields)])) =
        .ok "RUNNING")
    ∧ (sEndsWith t ".error" = false → sEndsWith t ".queued" = false →
      sEndsWith t ".running" = false →
      lookupField fields "status" = some (.str st) →
      test_result_outcome (mkMsg (.str t) b (.obj [("msg", .obj fields)])) =
        .ok (if sToLower st = "pass" then "PASSED"
             else if sToLower st = "fail" ∨ sToLower st = "failure" then "FAILED"
             else st))
    ∧ (sEndsWith t ".error" = false → sEndsWith t ".queued" = false →
      sEndsWith t ".running" = false →
      lookupField fields "status" = none →
      test_result_outcome (mkMsg (.str t) b (.obj [("msg", .obj fields)])) =
        .error (PyErr.keyError "status")) := by
  refine ⟨?_, ?_, ?_, ?_, ?_⟩
  · intro h1
    simp [test_result_outcome, mkMsg, JValue.index, lookupField, asStr, bind,
      Except.bind, pure, Except.pure, h1]
  · intro h1 h2
    simp [test_result_outcome, mkMsg, JValue.index, lookupField, asStr, bind,
      Except.bind, pure, Except.pure, h1, h2]
  · intro h1 h2 h3
    simp [test_result_outcome, mkMsg, JValue.index, lookupField, asStr, bind,
      Except.bind, pure, Except.pure, h1, h2, h3]
  · intro h1 h2 h3 h4
    simp only [test_result_outcome, mkMsg, JValue.index, lookupField, asStr,
      bind, Except.bind, pure, Except.pure, h1, h2, h3, h4, Bool.false_eq_true,
      if_false, if_true, String.reduceEq, ite_false, reduceIte]
    split_ifs with hp hfl hfr <;> simp_all
  · intro h1 h2 h3 h4
    simp [test_result_outcome, mkMsg, JValue.index, lookupField, asStr, bind,
      Except.bind, pure, Except.pure, h1, h2, h3, h4]

/-- Witness for C1: concrete instances of the classifier contract. -/
theorem C1_outcome_classifier_witness :
    test_result_outcome
        (mkMsg (.str "a.error") (.obj []) (.obj [("msg", .obj [])])) =
      .ok "FAILED"
    ∧ test_result_outcome
        (mkMsg (.str "a.complete") (.obj [])
          (.obj [("msg", .obj [("status", .str "WAIVED")])])) =
      .ok "WAIVED"
    ∧ test_result_outcome
        (mkMsg (.str "a.complete") (.obj []) (.obj [("msg", .obj [])])) =
      .error (PyErr.keyError "status") := by
  refine ⟨(C1_outcome_classifier "a.error" (.obj []) [] "x").1 rfl, ?_,
    (C1_outcome_classifier "a.complete" (.obj []) [] "x").2.2.2.2 rfl rfl rfl rfl⟩
  have h := (C1_outcome_classifier "a.complete" (.obj [])
    [("status", JValue.str "WAIVED")] "WAIVED").2.2.2.1 rfl rfl rfl rfl
  simpa using h

/-! ## Claim C2: topic / test case namespace validation -/

/-- **C2 counterexample.** The topic
`/topic/VirtualTopic.eng.ci..b.c.d` has the structured shape (prefix
and exactly 7 dot-separated components) and its namespace component
(index 3) is the empty string, which differs from the test case
namespace `x`; the claim demands "invalid", but the code returns
"valid" because the empty namespace is falsy in Python. -/
theorem C2_empty_namespace_counterexample :
    sStartsWith "/topic/VirtualTopic.eng.ci..b.c.d"
        "/topic/VirtualTopic.eng.ci." = true
    ∧ (sSplitOn '.' "/topic/VirtualTopic.eng.ci..b.c.d").length = 7
    ∧ (sSplitOn '.' "/topic/VirtualTopic.eng.ci..b.c.d").getD 3 "" ≠
        namespace_from_testcase_name "x.y"
    ∧ verify_topic_and_testcase_name "/topic/VirtualTopic.eng.ci..b.c.d"
        "x.y" = true := by
  refine ⟨rfl, rfl, ?_, rfl⟩
  decide

theorem verify_of_none {topic name : String}
    (h : namespace_from_topic topic = none) :
    verify_topic_and_testcase_name topic name = true := by
  unfold verify_topic_and_testcase_name
  rw [h]

theorem verify_of_some {topic name ns : String}
    (h : namespace_from_topic topic = some ns) (hne : ns ≠ "") :
    verify_topic_and_testcase_name topic name =
      decide (namespace_from_testcase_name name = ns) := by
  unfold verify_topic_and_testcase_name
  rw [h]
  by_cases heq : namespace_from_testcase_name name = ns <;> simp [hne, heq]

theorem verify_of_some_empty {topic name : String}
    (h : namespace_from_topic topic = some "") :
    verify_topic_and_testcase_name topic name = true := by
  unfold verify_topic_and_testcase_name
  rw [h]
  simp

theorem namespace_from_topic_structured {topic : String}
    (hs : sStartsWith topic "/topic/VirtualTopic.eng.ci." = true)
    (hl : (sSplitOn '.' topic).length = 7) :
    namespace_from_topic topic = some ((sSplitOn '.' topic).getD 3 "") := by
  unfold namespace_from_topic
  simp [hs, hl]

/-- **C2 (amended).** For every topic string and test case name: if the
topic has the structured shape (the fixed prefix
`/topic/VirtualTopic.eng.ci.` and exactly 7 dot-separated components)
and its namespace (component index 3) is non-empty, validation returns
valid exactly when that namespace equals the test case name's segment
before its first dot; if the namespace component is the empty string
(falsy in Python), validation returns valid without comparing; for any
topic not of that shape, validation returns valid (permissive
default). -/
theorem C2_topic_validation_amended (topic name : String) :
    ((sStartsWith topic "/topic/VirtualTopic.eng.ci." = true ∧
        (sSplitOn '.' topic).length = 7) →
      (((sSplitOn '.' topic).getD 3 "" ≠ "" →
        (verify_topic_and_testcase_name topic name = true ↔
          namespace_from_testcase_name name = (sSplitOn '.' topic).getD 3 ""))
      ∧ ((sSplitOn '.' topic).getD 3 "" = "" →
        verify_topic_and_testcase_name topic name = true)))
    ∧ (¬(sStartsWith topic "/topic/VirtualTopic.eng.ci." = true ∧
        (sSplitOn '.' topic).length = 7) →
      verify_topic_and_testcase_name topic name = true) := by
  constructor
  · rintro ⟨hs, hl⟩
    have hns := namespace_from_topic_structured hs hl
    constructor
    · intro hne
      rw [verify_of_some hns hne]
      simp
    · intro he
      rw [he] at hns
      exact verify_of_some_empty hns
  · intro hno
    refine verify_of_none ?_
    unfold namespace_from_topic
    by_cases hs : sStartsWith topic "/topic/VirtualTopic.eng.ci." = true
    · have hl : ¬ (sSplitOn '.' topic).length = 7 := fun hl => hno ⟨hs, hl⟩
      simp [hs, hl]
    · rw [if_neg hs]

/-- Witness for C2 (amended): a well-formed structured topic whose
namespace matches the test case name validates. -/
theorem C2_topic_validation_amended_witness :
    verify_topic_and_testcase_name
      "/topic/VirtualTopic.eng.ci.ns.rpm.test.complete"
      "ns.tier1.functional" = true := by
  have h := ((C2_topic_validation_amended
      "/topic/VirtualTopic.eng.ci.ns.rpm.test.complete"
      "ns.tier1.functional").1 ⟨rfl, rfl⟩).1 (by decide)
  exact h.mpr (by decide)

/-! ## Lemmas about `splitLastColon` and `nsvcMatch` -/

theorem takeWhile_all {α : Type} {p : α → Bool} :
    ∀ {l : List α}, (∀ x ∈ l, p x = true) → l.takeWhile p = l
  | [], _ => rfl
  | c :: cs, h => by
    have hc : p c = true := h c (by simp)
    simp only [List.takeWhile, hc]
    exact congrArg (c :: ·) (takeWhile_all (fun x hx => h x (by simp [hx])))

theorem takeWhile_middle {α : Type} {p : α → Bool} {c : α} (l2 : List α)
    (hc : p c = false) :
    ∀ {l1 : List α}, (∀ x ∈ l1, p x = true) →
      (l1 ++ c :: l2).takeWhile p = l1
  | [], _ => by simp [List.takeWhile, hc]
  | d :: ds, h => by
    have hd : p d = true := h d (by simp)
    simp only [List.cons_append, List.takeWhile, hd]
    exact congrArg (d :: ·) (takeWhile_middle l2 hc (fun x hx => h x (by simp [hx])))

theorem takeWhile_decomp {α : Type} {p : α → Bool} :
    ∀ {l : List α}, (l.takeWhile p).length ≠ l.length →
      ∃ c rest, l = l.takeWhile p ++ c :: rest ∧ p c = false ∧
        l.drop ((l.takeWhile p).length + 1) = rest
  | [], h => absurd rfl h
  | c :: cs, h => by
    cases hc : p c with
    | true =>
      have h' : (cs.takeWhile p).length ≠ cs.length := by
        simp only [List.takeWhile, hc] at h
        simpa using h
      obtain ⟨d, rest, he, hd, hdrop⟩ := takeWhile_decomp h'
      refine ⟨d, rest, ?_, hd, ?_⟩
      · simp only [List.takeWhile, hc]
        simpa using he
      · simp only [List.takeWhile, hc]
        simpa using hdrop
    | false =>
      refine ⟨c, cs, ?_, hc, ?_⟩
      · simp [List.takeWhile, hc]
      · simp [List.takeWhile, hc]

theorem splitLastColon_append {a b : List Char}
    (hb : ∀ ch ∈ b, ch ≠ ':') :
    splitLastColon (a ++ ':' :: b) = some (a, b) := by
  unfold splitLastColon
  have hrev : (a ++ ':' :: b).reverse = b.reverse ++ ':' :: a.reverse := by
    simp
  have htw : ((a ++ ':' :: b).reverse).takeWhile
      (fun c => (c ≠ ':' : Bool)) = b.reverse := by
    rw [hrev]
    exact takeWhile_middle a.reverse (by simp)
      (fun x hx => by simpa using hb x (List.mem_reverse.mp hx))
  rw [htw]
  have hlen : ¬ (b.reverse.length = (a ++ ':' :: b).reverse.length) := by
    simp
  rw [if_neg hlen]
  have hdrop : ((a ++ ':' :: b).reverse).drop (b.reverse.length + 1) =
      a.reverse := by
    rw [hrev]
    have he : b.reverse ++ ':' :: a.reverse =
        (b.reverse ++ [':']) ++ a.reverse := by simp
    have hl : (b.reverse ++ [':']).length = b.reverse.length + 1 := by simp
    rw [he, ← hl, List.drop_left]
  rw [hdrop]
  simp

theorem splitLastColon_decomp {cs a b : List Char}
    (h : splitLastColon cs = some (a, b)) :
    cs = a ++ ':' :: b ∧ ∀ ch ∈ b, ch ≠ ':' := by
  unfold splitLastColon at h
  split at h
  · exact Option.noConfusion h
  · rename_i hlen
    simp only [Option.some.injEq, Prod.mk.injEq] at h
    obtain ⟨ha, hb⟩ := h
    obtain ⟨c, rest, he, hc, hdrop⟩ := takeWhile_decomp hlen
    have hcol : c = ':' := by
      by_contra hne
      simp [hne] at hc
    subst hcol
    rw [hdrop] at ha
    constructor
    · calc cs = cs.reverse.reverse := (List.reverse_reverse cs).symm
        _ = ((cs.reverse.takeWhile (fun c => (c ≠ ':' : Bool))) ++
              ':' :: rest).reverse := by rw [← he]
        _ = rest.reverse ++ ':' ::
              (cs.reverse.takeWhile (fun c => (c ≠ ':' : Bool))).reverse := by
              simp
        _ = a ++ ':' :: b := by rw [ha, hb]
    · intro ch hch
      rw [← hb] at hch
      have := List.mem_takeWhile_imp (List.mem_reverse.mp hch)
      simpa using this

theorem count_colon_of_split {cs a b : List Char}
    (h : splitLastColon cs = some (a, b)) :
    a.count ':' + 1 ≤ cs.count ':' := by
  obtain ⟨he, -⟩ := splitLastColon_decomp h
  subst he
  simp [List.count_append]

theorem splitLastColon_none {cs : List Char}
    (h : cs.count ':' = 0) :
    splitLastColon cs = none := by
  unfold splitLastColon
  have hall : ∀ ch ∈ cs.reverse, ((ch ≠ ':' : Bool)) = true := by
    intro ch hch
    have : ch ≠ ':' := by
      intro heq
      subst heq
      have := List.count_pos_iff.mpr (List.mem_reverse.mp hch)
      omega
    simpa using this
  rw [takeWhile_all hall]
  simp

theorem nsvcMatch_none_of_count {s₀ : String}
    (h : s₀.data.count ':' < 3) : nsvcMatch s₀ = none := by
  unfold nsvcMatch
  have hsub : (s₀.data.takeWhile (fun c => (c ≠ '\n' : Bool))).Sublist
      s₀.data := (List.takeWhile_prefix _).sublist
  have hl : (s₀.data.takeWhile (fun c => (c ≠ '\n' : Bool))).count ':' < 3 :=
    lt_of_le_of_lt (hsub.count_le ':') h
  cases h1 : splitLastColon (s₀.data.takeWhile (fun c => (c ≠ '\n' : Bool))) with
  | none => rfl
  | some p1 =>
    obtain ⟨a1, c1⟩ := p1
    have ha1 : a1.count ':' < 2 := by
      have := count_colon_of_split h1
      omega
    cases h2 : splitLastColon a1 with
    | none => simp [h2]
    | some p2 =>
      obtain ⟨a2, c2⟩ := p2
      have ha2 : a2.count ':' = 0 := by
        have := count_colon_of_split h2
        omega
      simp [h2, splitLastColon_none ha2]

theorem sdata_append (a b : String) : (a ++ b).data = a.data ++ b.data := rfl

theorem nsvcMatch_join {n s v c : String}
    (hn : ∀ ch ∈ n.data, ch ≠ ':' ∧ ch ≠ '\n')
    (hs : ∀ ch ∈ s.data, ch ≠ ':' ∧ ch ≠ '\n')
    (hv : ∀ ch ∈ v.data, ch ≠ ':' ∧ ch ≠ '\n')
    (hc : ∀ ch ∈ c.data, ch ≠ ':' ∧ ch ≠ '\n') :
    nsvcMatch (n ++ ":" ++ s ++ ":" ++ v ++ ":" ++ c) = some (n, s, v, c) := by
  have e1 : (n ++ ":" ++ s ++ ":" ++ v ++ ":" ++ c).data =
      n.data ++ ':' :: (s.data ++ ':' :: (v.data ++ ':' :: c.data)) := by
    simp [sdata_append]
  have hall : ∀ ch ∈ (n ++ ":" ++ s ++ ":" ++ v ++ ":" ++ c).data,
      ((ch ≠ '\n' : Bool)) = true := by
    intro ch hch
    rw [e1] at hch
    simp only [List.mem_append, List.mem_cons] at hch
    have : ch ≠ '\n' := by
      rcases hch with h | h | h | h | h | h | h
      · exact (hn ch h).2
      · simp [h]
      · exact (hs ch h).2
      · simp [h]
      · exact (hv ch h).2
      · simp [h]
      · exact (hc ch h).2
    simpa using this
  unfold nsvcMatch
  have e2 : n.data ++ ':' :: (s.data ++ ':' :: (v.data ++ ':' :: c.data)) =
      (n.data ++ ':' :: (s.data ++ ':' :: v.data)) ++ ':' :: c.data := by
    simp
  have e3 : n.data ++ ':' :: (s.data ++ ':' :: v.data) =
      (n.data ++ ':' :: s.data) ++ ':' :: v.data := by
    simp
  rw [takeWhile_all hall, e1, e2, splitLastColon_append (fun ch h => (hc ch h).1),
    Option.some_bind]
  simp only []
  rw [e3, splitLastColon_append (fun ch h => (hv ch h).1), Option.some_bind]
  simp only []
  rw [splitLastColon_append (fun ch h => (hs ch h).1)]
  rfl

/-! ## Claim C3: redhat-module nsvc round-trip -/

/-- The concrete redhat-module message of the C3 counterexample: its
`nsvc` is the colon-join of the parts `a\nb`, `s`, `v`, `c`, each free
of `:`, but the name part contains a newline. -/
def msgC3 : JValue :=
  mkMsg (.str "t.error") (.obj [("message-id", .str "1")])
    (.obj [("msg", .obj [
      ("artifact", .obj [("type", .str "redhat-module"),
        ("nsvc", .str "a\nb:s:v:c")]),
      ("run", .obj [("url", .str "u")]),
      ("ci", .obj [])])])

/-- **C3 counterexample.**  With name `a\nb`, stream `s`, version `v`,
context `c` — all free of `:` — the joined nsvc is `a\nb:s:v:c`, but
`.` in the nsvc regex does not match a newline, so the match fails: no
item is extracted (the claim demands `a\nb-s-v.c`) and the handler
skips the message. -/
theorem C3_newline_nsvc_counterexample :
    redhat_module_item "a\nb:s:v:c" ≠ some "a\nb-s-v.c"
    ∧ handle_ci_umb "uuid-0" msgC3 = Except.ok UmbResult.skippedInvalidNsvc := by
  constructor
  · rw [show redhat_module_item "a\nb:s:v:c" = none from rfl]
    simp
  · rfl

/-- **C3 (amended).** For every redhat-module message whose
`artifact.nsvc` is the colon-joined string `name:stream:version:context`
with each part free of `:` *and of newline characters*, the extracted
item equals `{name}-{stream_with_underscores}-{version}.{context}`,
where the stream has every `-` replaced by `_`; name, version and
context are reproduced unchanged. -/
theorem C3_nsvc_roundtrip_amended (n s v c : String)
    (hn : ∀ ch ∈ n.data, ch ≠ ':' ∧ ch ≠ '\n')
    (hs : ∀ ch ∈ s.data, ch ≠ ':' ∧ ch ≠ '\n')
    (hv : ∀ ch ∈ v.data, ch ≠ ':' ∧ ch ≠ '\n')
    (hc : ∀ ch ∈ c.data, ch ≠ ':' ∧ ch ≠ '\n') :
    redhat_module_item (n ++ ":" ++ s ++ ":" ++ v ++ ":" ++ c) =
      some (n ++ "-" ++ replaceDash s ++ "-" ++ v ++ "." ++ c) := by
  unfold redhat_module_item
  rw [nsvcMatch_join hn hs hv hc]
  rfl

/-- Witness for C3 (amended): a concrete module build identifier. -/
theorem C3_nsvc_roundtrip_amended_witness :
    redhat_module_item "perl:5.30-guard:820200908:b4119df0" =
      some "perl-5.30_guard-820200908.b4119df0" := by
  have h := C3_nsvc_roundtrip_amended "perl" "5.30-guard" "820200908" "b4119df0"
    (by decide) (by decide) (by decide) (by decide)
  exact h.trans (by rfl)

/-! ## Claim C4: malformed nsvc aborts the message without raising -/

/-- **C4.** For every redhat-module message whose `artifact.nsvc` has
fewer than three `:` separators (so the four-part
`name:stream:version:context` pattern cannot match), the unified-bus
handler returns without raising and without making any submission call
(`.skippedInvalidNsvc` models the source's `return False` after logging
an error). -/
theorem C4_malformed_nsvc_skips
    (u topic s oc : String) (midv urlv civ : JValue)
    (hf mf af rf : List (String × JValue))
    (hmid : lookupField hf "message-id" = some midv)
    (haf : lookupField mf "artifact" = some (.obj af))
    (hty : lookupField af "type" = some (.str "redhat-module"))
    (hrun : lookupField mf "run" = some (.obj rf))
    (hurl : lookupField rf "url" = some urlv)
    (hci : lookupField mf "ci" = some civ)
    (hnsvc : lookupField af "nsvc" = some (.str s))
    (hcount : s.data.count ':' < 3)
    (hout : test_result_outcome
        (mkMsg (.str topic) (.obj hf) (.obj [("msg", .obj mf)])) = .ok oc) :
    handle_ci_umb u (mkMsg (.str topic) (.obj hf) (.obj [("msg", .obj mf)])) =
      .ok .skippedInvalidNsvc := by
  have hmatch := nsvcMatch_none_of_count hcount
  simp only [mkMsg] at hout ⊢
  unfold handle_ci_umb redhat_module_data
  simp [JValue.index, JValue.pyGet, lookupField, asStr, bind, Except.bind,
    pure, Except.pure, JValue.isStrEq, normalize_system, hmid, haf, hty,
    hrun, hurl, hci, hnsvc, hout, hmatch]

/-- The concrete malformed-nsvc message of the C4 witness. -/
def msgC4 : JValue :=
  mkMsg (.str "vt.error") (.obj [("message-id", .str "1")])
    (.obj [("msg", .obj [
      ("artifact", .obj [("type", .str "redhat-module"),
        ("nsvc", .str "name-stream-only")]),
      ("run", .obj [("url", .str "u")]),
      ("ci", .obj [])])])

/-- Witness for C4: the handler skips the malformed message. -/
theorem C4_malformed_nsvc_skips_witness :
    handle_ci_umb "u1" msgC4 = .ok .skippedInvalidNsvc :=
  C4_malformed_nsvc_skips "u1" "vt.error" "name-stream-only" "FAILED"
    (.str "1") (.str "u") (.obj [])
    [("message-id", .str "1")]
    [("artifact", .obj [("type", .str "redhat-module"),
        ("nsvc", .str "name-stream-only")]),
      ("run", .obj [("url", .str "u")]),
      ("ci", .obj [])]
    [("type", .str "redhat-module"), ("nsvc", .str "name-stream-only")]
    [("url", .str "u")]
    rfl rfl rfl rfl rfl rfl rfl (by decide) rfl

/-! ## Claim C5: container-image message without `digest` -/

/-- The concrete container-image message of the C5 counterexample: a
well-formed message whose artifact lacks the `digest` key. -/
def msgC5 : JValue :=
  mkMsg (.str "vt.error") (.obj [("message-id", .str "1")])
    (.obj [("msg", .obj [
      ("artifact", .obj [("type", .str "container-image"),
        ("repository", .str "quay.io/x/img"),
        ("nvr", .str "img-1-1")]),
      ("run", .obj [("url", .str "u"), ("log", .str "l")]),
      ("ci", .obj [("name", .str "cn"), ("team", .str "ct"),
        ("url", .str "cu"), ("email", .str "ce")])])])

/-- **C5 counterexample.**  On a container-image message without
`artifact.digest` the handler raises `KeyError('digest')` (line 387
reads `msg_body['artifact']['digest']` unconditionally): no item is
derived and no submission happens, contradicting the claimed no-crash
behaviour. -/
theorem C5_missing_digest_counterexample :
    handle_ci_umb "uuid-0" msgC5 = .error (PyErr.keyError "digest") := rfl

/-- **C5 (amended).** For every container-image message whose artifact
mapping has no `digest` key (and has a `repository`), the unified-bus
handler raises a lookup error (KeyError) on `digest` and makes no
submission; the digest-omitting item of the claim is never produced.
(The result_data comprehension two lines below reads the same keys with
`.get`, but the item derivation crashes first.) -/
theorem C5_missing_digest_raises
    (u topic oc : String) (midv urlv repov : JValue)
    (hf mf af rf : List (String × JValue))
    (hmid : lookupField hf "message-id" = some midv)
    (haf : lookupField mf "artifact" = some (.obj af))
    (hty : lookupField af "type" = some (.str "container-image"))
    (hrun : lookupField mf "run" = some (.obj rf))
    (hurl : lookupField rf "url" = some urlv)
    (hrepo : lookupField af "repository" = some repov)
    (hdig : lookupField af "digest" = none)
    (hout : test_result_outcome
        (mkMsg (.str topic) (.obj hf) (.obj [("msg", .obj mf)])) = .ok oc) :
    handle_ci_umb u (mkMsg (.str topic) (.obj hf) (.obj [("msg", .obj mf)])) =
      .error (PyErr.keyError "digest") := by
  simp only [mkMsg] at hout ⊢
  unfold handle_ci_umb container_image_data
  simp [JValue.index, JValue.pyGet, lookupField, asStr, bind, Except.bind,
    pure, Except.pure, JValue.isStrEq, normalize_system, hmid, haf, hty,
    hrun, hurl, hrepo, hdig, hout]

/-- Witness for C5 (amended): the concrete message raises the lookup
error. -/
theorem C5_missing_digest_raises_witness :
    handle_ci_umb "uuid-0" msgC5 = .error (PyErr.keyError "digest") :=
  C5_missing_digest_raises "uuid-0" "vt.error" "FAILED"
    (.str "1") (.str "u") (.str "quay.io/x/img")
    [("message-id", .str "1")]
    [("artifact", .obj [("type", .str "container-image"),
        ("repository", .str "quay.io/x/img"),
        ("nvr", .str "img-1-1")]),
      ("run", .obj [("url", .str "u"), ("log", .str "l")]),
      ("ci", .obj [("name", .str "cn"), ("team", .str "ct"),
        ("url", .str "cu"), ("email", .str "ce")])]
    [("type", .str "container-image"),
      ("repository", .str "quay.io/x/img"),
      ("nvr", .str "img-1-1")]
    [("url", .str "u"), ("log", .str "l")]
    rfl rfl rfl rfl rfl rfl rfl rfl

/-! ## Inversion lemmas for the CI-metrics pipeline -/

/-- The raw `tests` field of a message. -/
def tests_of (msg : JValue) : Option JValue :=
  ((msg.lookup "body").bind (fun b => b.lookup "msg")).bind
    (fun m => m.lookup "tests")

theorem subtest_outcome_ok {t : JValue} {o : String}
    (h : subtest_outcome t = .ok o) : o = "PASSED" ∨ o = "FAILED" := by
  unfold subtest_outcome at h
  simp only [bind, Except.bind] at h
  split at h
  · exact Except.noConfusion h
  · split at h
    · split at h
      · exact Except.noConfusion h
      · split at h
        · exact Except.noConfusion h
        · split at h <;>
            · injection h with h
              simp [← h]
    · injection h with h
      simp [← h]

theorem subtest_outcome_no_failed {fs : List (String × JValue)}
    (h : lookupField fs "failed" = none) :
    subtest_outcome (.obj fs) = .ok "FAILED" := by
  unfold subtest_outcome
  simp [JValue.hasField, bind, Except.bind, pure, Except.pure, h]

theorem ci_subtest_inv {ctx : CiCtx} {t : JValue} {sub : CiSubmission}
    (h : ci_subtest_submission ctx t = .ok sub) :
    sub.group_uuid = ctx.freshUuid ∧ sub.group_ref_url = ctx.group_ref_url ∧
    subtest_outcome t = .ok sub.outcome ∧
    hasKeyB sub.data "item" = true ∧ hasKeyB sub.data "type" = true := by
  unfold ci_subtest_submission at h
  simp only [bind, Except.bind] at h
  split at h
  · exact Except.noConfusion h
  · rename_i outc houtc
    split at h
    · exact Except.noConfusion h
    · rename_i ex hex
      split at h
      · exact Except.noConfusion h
      · rename_i tf htf
        split at h
        · exact Except.noConfusion h
        · rename_i d hd
          simp only [pure, Except.pure, Except.ok.injEq] at h
          subst h
          refine ⟨rfl, rfl, houtc, ?_, ?_⟩
          · exact update_publisher_id_keys hd
              (hasKeyB_dictSet_of _ _ (hasKeyB_dictSet_of _ _
                (hasKeyB_dictSet_of _ _ (hasKeyB_dictSet_of _ _
                  (hasKeyB_dictSet_of _ _ (hasKeyB_dictSet_of _ _
                    (hasKeyB_dictSet_self _ _ _)))))))
          · exact update_publisher_id_keys hd
              (hasKeyB_dictSet_of _ _ (hasKeyB_dictSet_of _ _
                (hasKeyB_dictSet_of _ _ (hasKeyB_dictSet_of _ _
                  (hasKeyB_dictSet_of _ _ (hasKeyB_dictSet_self _ _ _))))))

theorem process_tests_ok {ctx : CiCtx} {ts : List JValue}
    {l : List CiSubmission} {anyF : Bool}
    (h : process_tests ctx ts = .ok (l, anyF)) :
    List.Forall₂ (fun t sub => ci_subtest_submission ctx t = .ok sub) ts l ∧
    anyF = l.any (fun s => decide (s.outcome = "FAILED")) := by
  induction ts generalizing l anyF with
  | nil =>
    unfold process_tests at h
    simp only [Except.ok.injEq, Prod.mk.injEq] at h
    obtain ⟨hl, ha⟩ := h
    subst hl
    subst ha
    exact ⟨List.Forall₂.nil, rfl⟩
  | cons t ts ih =>
    unfold process_tests at h
    simp only [bind, Except.bind] at h
    split at h
    · exact Except.noConfusion h
    · rename_i sub hsub
      split at h
      · exact Except.noConfusion h
      · rename_i p hp
        obtain ⟨subs', anyF'⟩ := p
        simp only [pure, Except.pure, Except.ok.injEq, Prod.mk.injEq] at h
        obtain ⟨h1, h2⟩ := h
        obtain ⟨hf, ha⟩ := ih hp
        subst h1
        subst h2
        refine ⟨List.Forall₂.cons hsub hf, ?_⟩
        simp [ha]

theorem forall₂_mem_left {α β : Type} {R : α → β → Prop} {as : List α}
    {bs : List β} (h : List.Forall₂ R as bs) {a : α} (ha : a ∈ as) :
    ∃ b ∈ bs, R a b := by
  induction h with
  | nil => exact absurd ha (List.not_mem_nil a)
  | cons hr _ ih =>
    rcases List.mem_cons.mp ha with he | hm
    · exact ⟨_, List.mem_cons_self _ _, he ▸ hr⟩
    · obtain ⟨b, hb, hrb⟩ := ih hm
      exact ⟨b, List.mem_cons_of_mem _ hb, hrb⟩

theorem handle_ci_metrics_inv {u : String} {msg : JValue}
    {subs : List CiSubmission}
    (h : handle_ci_metrics u msg = .ok subs) :
    ∃ (ts : List JValue) (ctx : CiCtx) (l : List CiSubmission)
      (anyF : Bool) (agg : CiSubmission),
      tests_of msg = some (.arr ts) ∧
      ctx.freshUuid = u ∧
      process_tests ctx ts = .ok (l, anyF) ∧
      subs = l ++ [agg] ∧
      agg.group_uuid = u ∧
      agg.group_ref_url = ctx.group_ref_url ∧
      agg.outcome = (if anyF then "FAILED" else "PASSED") ∧
      hasKeyB agg.data "item" = true ∧ hasKeyB agg.data "type" = true := by
  unfold handle_ci_metrics at h
  simp only [bind, Except.bind] at h
  repeat' split at h
  all_goals try exact Except.noConfusion h
  all_goals injection h with h
  all_goals
    rename_i x20 headers heqHeaders x19 mid heqMid x18 bodyv heqBody x17 m
      heqMsg x16 team heqTeam x15 hasJob heqHasJob x14 tn heqTn x13 tju heqTju
      x12 gru heqGru x11 bty heqBty x10 art heqArt x9 brew heqBrew x8 testsv
      heqTests x7 gurl heqGurl x6 comp heqComp x5 recr heqRecr x4 recs heqRecs
      x3 citier heqCitier x2 tl heqTl x1 psubs heqPt x0 rdata heqUpd hany
  all_goals cases testsv <;> try simp at heqTl
  all_goals rename_i xs
  all_goals subst heqTl
  all_goals
    refine ⟨xs, ({ msg := msg, team := team, test_name := tn,
                   testcase_url := tju,
                   group_tests_ref_url := rstripSlash gurl ++ "/console",
                   component := comp,
                   test_type :=
                     if bty.isStrEq "scratch" = true then
                       (if (!brew.isStrEq "unknown") = true then "koji_build"
                        else "unknown") ++ "_scratch"
                     else if (!brew.isStrEq "unknown") = true then "koji_build"
                     else "unknown",
                   recipients :=
                     JValue.arr (List.map JValue.str (sSplitOn ',' recs)),
                   ci_tier := citier, artifact := art, brew_task_id := brew,
                   freshUuid := u, group_ref_url := gru } : CiCtx),
      psubs.1, psubs.2, _, ?_, rfl, ?_, h.symm, rfl, rfl, ?_, ?_, ?_⟩
  · simp [tests_of, index_ok_iff_lookup.mp heqBody,
      index_ok_iff_lookup.mp heqMsg, index_ok_iff_lookup.mp heqTests]
  · simpa using heqPt
  · simp [hany]
  · exact update_publisher_id_keys heqUpd (by simp [hasKeyB])
  · exact update_publisher_id_keys heqUpd (by simp [hasKeyB])
  · simp [tests_of, index_ok_iff_lookup.mp heqBody,
      index_ok_iff_lookup.mp heqMsg, index_ok_iff_lookup.mp heqTests]
  · simpa using heqPt
  · simp [hany]
  · exact update_publisher_id_keys heqUpd (by simp [hasKeyB])
  · exact update_publisher_id_keys heqUpd (by simp [hasKeyB])

theorem forall₂_mem_right {α β : Type} {R : α → β → Prop} {as : List α}
    {bs : List β} (h : List.Forall₂ R as bs) {b : β} (hb : b ∈ bs) :
    ∃ a ∈ as, R a b := by
  induction h with
  | nil => exact absurd hb (List.not_mem_nil b)
  | cons hr _ ih =>
    rcases List.mem_cons.mp hb with he | hm
    · exact ⟨_, List.mem_cons_self _ _, he ▸ hr⟩
    · obtain ⟨a, ha, hra⟩ := ih hm
      exact ⟨a, List.mem_cons_of_mem _ ha, hra⟩

/-! ## Claim C8: legacy CI-metrics submissions -/

/-- **C8.** For every legacy CI-metrics message with `n` sub-test
records, exactly `n+1` submission calls are made (one per sub-test plus
one aggregate), all `n+1` sharing the same single group with the one
freshly generated UUID; the aggregate outcome is FAILED if at least one
sub-test outcome was FAILED, and PASSED otherwise. -/
theorem C8_ci_metrics_submissions (u : String) (msg : JValue)
    (subs : List CiSubmission) (ts : List JValue)
    (h : handle_ci_metrics u msg = .ok subs)
    (hts : tests_of msg = some (.arr ts)) :
    subs.length = ts.length + 1 ∧
    (∀ s ∈ subs, s.group_uuid = u) ∧
    (∀ s ∈ subs, ∀ s' ∈ subs, s.group_ref_url = s'.group_ref_url) ∧
    ∃ l agg, subs = l ++ [agg] ∧ l.length = ts.length ∧
      (∀ s ∈ l, s.outcome = "PASSED" ∨ s.outcome = "FAILED") ∧
      agg.outcome =
        (if l.any (fun s => decide (s.outcome = "FAILED")) then "FAILED"
         else "PASSED") := by
  obtain ⟨ts', ctx, l, anyF, agg, hts', hu, hpt, hsub, hagg_u, hagg_g,
    hagg_o, -, -⟩ := handle_ci_metrics_inv h
  rw [hts] at hts'
  simp only [Option.some.injEq, JValue.arr.injEq] at hts'
  subst hts'
  obtain ⟨hf, hanyF⟩ := process_tests_ok hpt
  have hlen : l.length = ts.length := hf.length_eq.symm
  have hmem : ∀ s ∈ l, s.group_uuid = u ∧
      s.group_ref_url = ctx.group_ref_url ∧
      (s.outcome = "PASSED" ∨ s.outcome = "FAILED") := by
    intro s hs
    obtain ⟨t, -, hrel⟩ := forall₂_mem_right hf hs
    obtain ⟨h1, h2, h3, -, -⟩ := ci_subtest_inv hrel
    exact ⟨h1.trans hu, h2, subtest_outcome_ok h3⟩
  subst hsub
  have hgr : ∀ s ∈ l ++ [agg], s.group_ref_url = ctx.group_ref_url := by
    intro s hs
    rcases List.mem_append.mp hs with hsl | hsa
    · exact (hmem s hsl).2.1
    · simp only [List.mem_singleton] at hsa
      rw [hsa]
      exact hagg_g
  refine ⟨?_, ?_, ?_, l, agg, rfl, hlen, fun s hs => (hmem s hs).2.2, ?_⟩
  · simp [hlen]
  · intro s hs
    rcases List.mem_append.mp hs with hsl | hsa
    · exact (hmem s hsl).1
    · simp only [List.mem_singleton] at hsa
      rw [hsa]
      exact hagg_u
  · intro s hs s' hs'
    rw [hgr s hs, hgr s' hs']
  · rw [hagg_o, hanyF]

/-! ## Claim C10: a sub-test without a `failed` key -/

/-- **C10.** In the CI-metrics pipeline, a sub-test record that lacks
the `failed` key entirely is classified FAILED (the same as a nonzero
failed count), and its presence forces the aggregate outcome of the
message (the last submission) to FAILED. -/
theorem C10_missing_failed_key :
    (∀ fs : List (String × JValue), lookupField fs "failed" = none →
      subtest_outcome (.obj fs) = .ok "FAILED")
    ∧ (∀ (u : String) (msg : JValue) (subs : List CiSubmission)
        (ts : List JValue) (fs : List (String × JValue)) (agg : CiSubmission),
        handle_ci_metrics u msg = .ok subs →
        tests_of msg = some (.arr ts) →
        JValue.obj fs ∈ ts →
        lookupField fs "failed" = none →
        subs.getLast? = some agg →
        agg.outcome = "FAILED") := by
  refine ⟨fun fs h => subtest_outcome_no_failed h, ?_⟩
  intro u msg subs ts fs agg h hts hmem hnof hlast
  obtain ⟨ts', ctx, l, anyF, agg', hts', hu, hpt, hsub, -, -, hagg_o, -, -⟩ :=
    handle_ci_metrics_inv h
  rw [hts] at hts'
  simp only [Option.some.injEq, JValue.arr.injEq] at hts'
  subst hts'
  obtain ⟨hf, hanyF⟩ := process_tests_ok hpt
  obtain ⟨sub, hsubl, hrel⟩ := forall₂_mem_left hf hmem
  have hout := (ci_subtest_inv hrel).2.2.1
  rw [subtest_outcome_no_failed hnof] at hout
  injection hout with hout
  have hany : l.any (fun s => decide (s.outcome = "FAILED")) = true :=
    List.any_eq_true.mpr ⟨sub, hsubl, by simp [← hout]⟩
  rw [hsub] at hlast
  rw [List.getLast?_concat] at hlast
  injection hlast with hlast
  rw [← hlast, hagg_o, hanyF, hany]
  simp

/-- The concrete CI-metrics message of the C8 witness: two sub-tests,
one passing (`failed: 0`) and one failing (`failed: 1`). -/
def ciMsgW : JValue :=
  mkMsg (.str "tpc") (.obj [("message-id", .str "1")])
    (.obj [("msg", .obj [
      ("team", .str "tm"),
      ("job_name", .str "job"),
      ("jenkins_job_url", .str "jj"),
      ("jenkins_build_url", .str "jb/"),
      ("tests", .arr [
        .obj [("executor", .str "e1"), ("failed", .int 0)],
        .obj [("failed", .str "1")]]),
      ("component", .str "comp")])])

/-- Witness for C8: the two-sub-test message yields exactly three
submissions. -/
theorem C8_ci_metrics_submissions_witness :
    (handle_ci_metrics "uuid-w" ciMsgW).map List.length = Except.ok 3 := by
  obtain ⟨subs, hs⟩ : ∃ s, handle_ci_metrics "uuid-w" ciMsgW = .ok s :=
    ⟨_, rfl⟩
  have hc := C8_ci_metrics_submissions "uuid-w" ciMsgW subs
    [.obj [("executor", .str "e1"), ("failed", .int 0)],
     .obj [("failed", .str "1")]] hs rfl
  rw [hs]
  simp [Except.map, hc.1]

/-- The concrete CI-metrics message of the C10 witness: its single
sub-test record has no `failed` key. -/
def ciMsgW10 : JValue :=
  mkMsg (.str "tpc") (.obj [("message-id", .str "1")])
    (.obj [("msg", .obj [
      ("job_name", .str "j"),
      ("jenkins_job_url", .str "jj"),
      ("jenkins_build_url", .str "jb"),
      ("tests", .arr [.obj []])])])

/-- The result data shared by both submissions of `ciMsgW10`. -/
def dataW10 : List (String × JValue) :=
  [("item", .str "unknown"), ("type", .str "unknown"),
   ("recipients", .arr [.str "unknown"]),
   ("CI_tier", .arr [.str "unknown"]),
   ("job_name", .str "j"), ("artifact", .str "unknown"),
   ("brew_task_id", .str "unknown")]

/-- The aggregate submission produced for `ciMsgW10`. -/
def aggW10 : CiSubmission :=
  { testcase_name := "unassigned.j", testcase_ref_url := .str "jj",
    outcome := "FAILED", ref_url := "jb/console", data := dataW10,
    group_uuid := "uuid-x", group_ref_url := .str "jb" }

/-- The submissions produced for `ciMsgW10`. -/
def subsW10 : List CiSubmission :=
  [{ testcase_name := "unassigned.j.unknown", testcase_ref_url := .str "jj",
     outcome := "FAILED", ref_url := "jb/console", data := dataW10,
     group_uuid := "uuid-x", group_ref_url := .str "jb" },
   aggW10]

/-- Witness for C10: the sub-test without a `failed` key is classified
FAILED and the aggregate (last) submission is FAILED. -/
theorem C10_missing_failed_key_witness :
    subtest_outcome (.obj []) = .ok "FAILED" ∧
    handle_ci_metrics "uuid-x" ciMsgW10 = Except.ok subsW10 ∧
    subsW10.getLast? = some aggW10 ∧
    aggW10.outcome = "FAILED" := by
  refine ⟨C10_missing_failed_key.1 [] rfl, rfl, rfl, ?_⟩
  exact C10_missing_failed_key.2 "uuid-x" ciMsgW10 subsW10 [.obj []] []
    aggW10 rfl rfl (by simp) rfl rfl

/-! ## Inversion lemmas for the unified-bus pipeline -/

theorem index_ok_inv {v : JValue} {k : String} {x : JValue}
    (h : v.index k = .ok x) :
    ∃ fs, v = .obj fs ∧ lookupField fs k = some x := by
  cases v <;> simp only [JValue.index] at h
  case obj fs =>
    cases hl : lookupField fs k with
    | none => rw [hl] at h; exact Except.noConfusion h
    | some y =>
      rw [hl] at h
      injection h with h
      exact ⟨fs, rfl, h ▸ hl⟩
  all_goals exact Except.noConfusion h

theorem pyGet_ok_inv {v : JValue} {k : String} {d r : JValue}
    (h : v.pyGet k d = .ok r) :
    ∃ fs, v = .obj fs ∧
      r = (match lookupField fs k with | some x => x | none => d) := by
  cases v <;> simp only [JValue.pyGet] at h
  case obj fs =>
    injection h with h
    exact ⟨fs, rfl, h.symm⟩
  all_goals exact Except.noConfusion h

theorem pyGet_nonnull {v : JValue} {k : String} {d r : JValue}
    (h : v.pyGet k d = .ok r) (hl : v.lookup k ≠ some .null)
    (hd : JValue.isNull d = false) : JValue.isNull r = false := by
  obtain ⟨fs, hv, hr⟩ := pyGet_ok_inv h
  subst hv
  subst hr
  cases hx : lookupField fs k with
  | none => simpa [hx] using hd
  | some x =>
    simp only [hx]
    cases x <;> simp_all [JValue.lookup, JValue.isNull]

theorem mem_filter_nonnull {l d : List (String × JValue)}
    (hd : d = l.filter (fun p => !JValue.isNull p.2)) :
    ∀ p ∈ d, JValue.isNull p.2 = false := by
  intro p hp
  rw [hd] at hp
  have := (List.mem_filter.mp hp).2
  simpa using this

theorem hasKeyB_filter_of_mem {l : List (String × JValue)} {k : String}
    {v : JValue} (hm : (k, v) ∈ l) (hv : JValue.isNull v = false) :
    hasKeyB (l.filter (fun p => !JValue.isNull p.2)) k = true :=
  hasKeyB_iff.mpr ⟨v, List.mem_filter.mpr ⟨hm, by simp [hv]⟩⟩

theorem productmd_compose_data_inv {mb sys af tyv : JValue}
    {d : List (String × JValue)}
    (h : productmd_compose_data mb sys af tyv = .ok d) :
    (∀ p ∈ d, JValue.isNull p.2 = false) ∧
    hasKeyB d "item" = true ∧
    (JValue.isNull tyv = false → hasKeyB d "type" = true) := by
  unfold productmd_compose_data at h
  simp only [bind, Except.bind] at h
  repeat' split at h
  all_goals try exact Except.noConfusion h
  all_goals injection h with h
  all_goals subst h
  all_goals
    exact ⟨mem_filter_nonnull rfl,
      hasKeyB_filter_of_mem (List.mem_cons_self _ _) rfl,
      fun hty => hasKeyB_filter_of_mem (v := tyv) (by simp) hty⟩

theorem component_version_data_inv {mb af tyv : JValue}
    {d : List (String × JValue)}
    (h : component_version_data mb af tyv = .ok d) :
    (∀ p ∈ d, JValue.isNull p.2 = false) ∧
    hasKeyB d "item" = true ∧
    (JValue.isNull tyv = false → hasKeyB d "type" = true) := by
  unfold component_version_data at h
  simp only [bind, Except.bind] at h
  repeat' split at h
  all_goals try exact Except.noConfusion h
  all_goals injection h with h
  all_goals subst h
  all_goals
    exact ⟨mem_filter_nonnull rfl,
      hasKeyB_filter_of_mem (List.mem_cons_self _ _) rfl,
      fun hty => hasKeyB_filter_of_mem (v := tyv) (by simp) hty⟩

theorem container_image_data_inv {mb sys af tyv : JValue}
    {d : List (String × JValue)}
    (h : container_image_data mb sys af tyv = .ok d) :
    (∀ p ∈ d, JValue.isNull p.2 = false) ∧
    hasKeyB d "item" = true ∧
    (JValue.isNull tyv = false → hasKeyB d "type" = true) := by
  unfold container_image_data at h
  simp only [bind, Except.bind] at h
  repeat' split at h
  all_goals try exact Except.noConfusion h
  all_goals injection h with h
  all_goals subst h
  all_goals
    exact ⟨mem_filter_nonnull rfl,
      hasKeyB_filter_of_mem (List.mem_cons_self _ _) rfl,
      fun hty => hasKeyB_filter_of_mem (v := tyv) (by simp) hty⟩

theorem redhat_module_data_inv {mb sys af tyv : JValue}
    {d : List (String × JValue)}
    (h : redhat_module_data mb sys af tyv = .ok (some d)) :
    hasKeyB d "item" = true ∧ hasKeyB d "type" = true := by
  unfold redhat_module_data at h
  simp only [bind, Except.bind] at h
  repeat' split at h
  all_goals try exact Except.noConfusion h
  all_goals injection h with h
  all_goals try exact Option.noConfusion h
  all_goals injection h with h
  all_goals subst h
  all_goals exact ⟨by simp [hasKeyB], by simp [hasKeyB]⟩

theorem default_artifact_data_inv {mb sys af tyv : JValue}
    {d : List (String × JValue)}
    (h : default_artifact_data mb sys af tyv = .ok d) :
    hasKeyB d "item" = true ∧ hasKeyB d "type" = true := by
  unfold default_artifact_data at h
  simp only [bind, Except.bind] at h
  repeat' split at h
  all_goals try exact Except.noConfusion h
  all_goals injection h with h
  all_goals subst h
  all_goals exact ⟨by simp [hasKeyB], by simp [hasKeyB]⟩

theorem isStrEq_true {v : JValue} {s : String} (h : v.isStrEq s = true) :
    v = .str s := by
  cases v <;> simp_all [JValue.isStrEq]

/-- The raw `artifact.type` field of a unified-bus message. -/
def artifact_type_of (msg : JValue) : Option JValue :=
  (((msg.lookup "body").bind (fun b => b.lookup "msg")).bind
    (fun m => m.lookup "artifact")).bind (fun a => a.lookup "type")

/-- The raw `recipients` field of a unified-bus message. -/
def recipients_of (msg : JValue) : Option JValue :=
  ((msg.lookup "body").bind (fun b => b.lookup "msg")).bind
    (fun m => m.lookup "recipients")

theorem handle_ci_umb_submitted_inv {u : String} {msg : JValue}
    {sub : UmbSubmission}
    (h : handle_ci_umb u msg = .ok (.submitted sub)) :
    ∃ (mf : List (String × JValue)) (artv tyv sys recv : JValue)
      (rd : List (String × JValue)),
      ((msg.lookup "body").bind (fun b => b.lookup "msg")) = some (.obj mf) ∧
      lookupField mf "artifact" = some artv ∧
      artv.lookup "type" = some tyv ∧
      recv = (match lookupField mf "recipients" with
              | some x => x
              | none => .arr []) ∧
      update_publisher_id (dictSet rd "recipients" recv) msg = .ok sub.data ∧
      ((tyv = .str "productmd-compose" ∧
          productmd_compose_data (.obj mf) sys artv tyv = .ok rd) ∨
       (tyv = .str "component-version" ∧
          component_version_data (.obj mf) artv tyv = .ok rd) ∨
       (tyv = .str "container-image" ∧
          container_image_data (.obj mf) sys artv tyv = .ok rd) ∨
       (tyv = .str "redhat-module" ∧
          redhat_module_data (.obj mf) sys artv tyv = .ok (some rd)) ∨
       (tyv.isStrEq "productmd-compose" = false ∧
          tyv.isStrEq "component-version" = false ∧
          tyv.isStrEq "container-image" = false ∧
          default_artifact_data (.obj mf) sys artv tyv = .ok rd)) := by
  unfold handle_ci_umb at h
  simp only [bind, Except.bind] at h
  repeat' split at h
  all_goals try exact Except.noConfusion h
  all_goals injection h with h
  all_goals try exact UmbResult.noConfusion h
  all_goals injection h with h
  rename_i x15 headers heqHeaders x14 mid heqMid x13 bodyv heqBody x12 m
    heqMsg x11 artv heqArtifact x10 tyv heqTy x9 runv heqRun x8 urlv heqUrl
    x7 oc heqOut x6 sysraw heqSys x5 rdOpt rd heqRd x4 recv heqRecv x3 dfin
    heqUpd x2 tc heqTc x1 topicv heqTopic x0 topics heqAsStr hver
  subst h
  obtain ⟨mf, hm_eq, hart⟩ := index_ok_inv heqArtifact
  subst hm_eq
  have hbody : ((msg.lookup "body").bind (fun b => b.lookup "msg")) =
      some (.obj mf) := by
    simp [index_ok_iff_lookup.mp heqBody, index_ok_iff_lookup.mp heqMsg]
  have htyl : artv.lookup "type" = some tyv := index_ok_iff_lookup.mp heqTy
  obtain ⟨mf', hmf', hrecv⟩ := pyGet_ok_inv heqRecv
  injection hmf' with hmf'
  subst hmf'
  refine ⟨mf, artv, tyv, normalize_system sysraw, recv, rd, hbody, hart,
    htyl, hrecv, heqUpd, ?_⟩
  split at heqRd
  · rename_i hc1
    split at heqRd
    · exact Except.noConfusion heqRd
    · rename_i d hd
      injection heqRd with heqRd
      injection heqRd with heqRd
      exact Or.inl ⟨isStrEq_true hc1, heqRd ▸ hd⟩
  · rename_i hc1
    split at heqRd
    · rename_i hc2
      split at heqRd
      · exact Except.noConfusion heqRd
      · rename_i d hd
        injection heqRd with heqRd
        injection heqRd with heqRd
        exact Or.inr (Or.inl ⟨isStrEq_true hc2, heqRd ▸ hd⟩)
    · rename_i hc2
      split at heqRd
      · rename_i hc3
        split at heqRd
        · exact Except.noConfusion heqRd
        · rename_i d hd
          injection heqRd with heqRd
          injection heqRd with heqRd
          exact Or.inr (Or.inr (Or.inl ⟨isStrEq_true hc3, heqRd ▸ hd⟩))
      · rename_i hc3
        split at heqRd
        · rename_i hc4
          exact Or.inr (Or.inr (Or.inr (Or.inl ⟨isStrEq_true hc4, heqRd⟩)))
        · rename_i hc4
          split at heqRd
          · exact Except.noConfusion heqRd
          · rename_i d hd
            injection heqRd with heqRd
            injection heqRd with heqRd
            exact Or.inr (Or.inr (Or.inr (Or.inr
              ⟨by simpa using hc1, by simpa using hc2, by simpa using hc3,
               heqRd ▸ hd⟩)))

/-! ## Claim C6: null values in result_data -/

/-- Extracts the submitted result data, `[]` when nothing was
submitted. -/
def submitted_data : Except PyErr UmbResult → List (String × JValue)
  | .ok (.submitted s) => s.data
  | _ => []

/-- The concrete redhat-module message of the C6 counterexample: all
required fields present, but the optional `issuer`, `rebuild`,
`system_*` and most `ci_*` fields are absent, so the dict literal of
the redhat-module branch stores `None` under those keys. -/
def msgC6 : JValue :=
  mkMsg (.str "old.topic.error") (.obj [("message-id", .str "1")])
    (.obj [("msg", .obj [
      ("artifact", .obj [("type", .str "redhat-module"),
        ("nsvc", .str "n:s:v:c"), ("context", .str "c"),
        ("name", .str "n"), ("stream", .str "s"), ("version", .str "v")]),
      ("run", .obj [("url", .str "u"), ("log", .str "l")]),
      ("category", .str "cat"),
      ("ci", .obj [("url", .str "cu")])])])

/-- **C6 counterexample.**  A redhat-module message reaching submission
whose result_data contains keys with `None` values (`issuer`,
`rebuild`, `system_os`, …): absent optional fields of the redhat-module
(and default) variants are emitted as null rather than omitted. -/
theorem C6_null_values_counterexample :
    (submitted_data (handle_ci_umb "uuid-0" msgC6)).any
      (fun p => JValue.isNull p.2) = true := rfl

/-- **C6 (amended).** For every unified-bus message of the
productmd-compose, component-version or container-image variants whose
`recipients` field is not explicitly null, the result_data mapping
passed to submission contains no key whose value is None (absent
values are omitted by the `if value is not None` comprehension, and the
appended recipients and publisher id are never null); redhat-module and
default-variant messages may include null values for absent optional
fields. -/
theorem C6_no_null_values_amended (u : String) (msg : JValue)
    (sub : UmbSubmission) (tyname : String)
    (h : handle_ci_umb u msg = .ok (.submitted sub))
    (hvar : tyname = "productmd-compose" ∨ tyname = "component-version" ∨
      tyname = "container-image")
    (hty : artifact_type_of msg = some (.str tyname))
    (hrec : recipients_of msg ≠ some .null) :
    ∀ p ∈ sub.data, JValue.isNull p.2 = false := by
  obtain ⟨mf, artv, tyv, sys, recv, rd, hbody, hart, htyl, hrecv, hupd,
    hdisj⟩ := handle_ci_umb_submitted_inv h
  have htyv : tyv = .str tyname := by
    unfold artifact_type_of at hty
    rw [hbody] at hty
    simp only [Option.some_bind] at hty
    rw [show (JValue.obj mf).lookup "artifact" = some artv from hart] at hty
    simp only [Option.some_bind] at hty
    rw [htyl] at hty
    injection hty
  have hrecn : JValue.isNull recv = false := by
    unfold recipients_of at hrec
    rw [hbody] at hrec
    simp only [Option.some_bind] at hrec
    have : JValue.lookup (.obj mf) "recipients" ≠ some .null := hrec
    rw [hrecv]
    cases hx : lookupField mf "recipients" with
    | none => rfl
    | some x =>
      simp only [hx]
      cases x <;> simp_all [JValue.lookup, JValue.isNull]
  have hrdn : ∀ p ∈ rd, JValue.isNull p.2 = false := by
    rcases hdisj with ⟨he, hb⟩ | ⟨he, hb⟩ | ⟨he, hb⟩ | ⟨he, hb⟩ |
      ⟨hn1, hn2, hn3, hb⟩
    · exact (productmd_compose_data_inv hb).1
    · exact (component_version_data_inv hb).1
    · exact (container_image_data_inv hb).1
    · rcases hvar with hv | hv | hv <;> simp [he, hv] at htyv
    · subst htyv
      rcases hvar with hv | hv | hv <;> subst hv <;>
        simp [JValue.isStrEq] at hn1 hn2 hn3
  exact update_publisher_id_nonnull hupd (mem_dictSet_nonnull hrdn hrecn)

/-- The concrete component-version message of the C6 witness. -/
def msgC6w : JValue :=
  mkMsg (.str "old.error") (.obj [("message-id", .str "1")])
    (.obj [("msg", .obj [
      ("artifact", .obj [("type", .str "component-version"),
        ("component", .str "co"), ("version", .str "1")]),
      ("run", .obj [("url", .str "u"), ("log", .str "l")]),
      ("ci", .obj [("name", .str "cn"), ("team", .str "ct"),
        ("url", .str "cu"), ("email", .str "ce")])])])

/-- The submission produced for `msgC6w`. -/
def subC6w : UmbSubmission :=
  { testcase_name := "unknown.unknown.unknown",
    testcase_ref_url := .str "cu",
    outcome := "FAILED",
    ref_url := .str "u",
    data := [("item", .str "co-1"), ("ci_name", .str "cn"),
      ("ci_team", .str "ct"), ("ci_url", .str "cu"),
      ("ci_email", .str "ce"), ("log", .str "l"),
      ("type", .str "component-version"), ("component", .str "co"),
      ("version", .str "1"), ("recipients", .arr [])],
    group_uuid := "uuid-1",
    group_url := .str "u" }

/-- Witness for C6 (amended): every value of the submitted
component-version result_data is non-null. -/
theorem C6_no_null_values_amended_witness :
    handle_ci_umb "uuid-1" msgC6w = .ok (.submitted subC6w) ∧
    subC6w.data.all (fun p => !JValue.isNull p.2) = true := by
  refine ⟨rfl, List.all_eq_true.mpr ?_⟩
  intro p hp
  have := C6_no_null_values_amended "uuid-1" msgC6w subC6w
    "component-version" rfl (Or.inr (Or.inl rfl)) rfl
    (by rw [show recipients_of msgC6w = none from rfl]; simp) p hp
  simpa using this

/-! ## Claim C7: `item` and `type` keys in result_data -/

/-- The concrete resultsdb-format message of the C7 counterexample:
single mode, with an empty `data` mapping, which the handler passes
through unchanged. -/
def msgC7 : JValue :=
  mkMsg (.str "t") (.obj [])
    (.obj [("msg", .obj [
      ("ref_url", .str "r"),
      ("data", .obj []),
      ("testcase", .obj [("name", .str "generic.test")]),
      ("outcome", .str "PASSED")])])

/-- **C7 counterexample.**  The resultsdb-format pipeline submits the
message's `data` mapping as-is: with an empty `data` the single
submission carries neither an `item` nor a `type` key. -/
theorem C7_resultsdb_passthrough_counterexample :
    (handle_resultsdb_format "uuid-0" none msgC7).map
      (fun l => l.map
        (fun s => hasKeyB s.data "item" || hasKeyB s.data "type")) =
      Except.ok [false] := rfl

/-- **C7 (amended).** Every result_data mapping passed to a submission
call by the CI-metrics pipeline or by the unified bus pipeline contains
both an `item` key and a `type` key; the resultsdb-format pipeline,
however, passes the message's own `data` mapping through unchanged, so
no such guarantee holds there. -/
theorem C7_item_type_amended :
    (∀ (u : String) (msg : JValue) (subs : List CiSubmission),
      handle_ci_metrics u msg = .ok subs →
      ∀ s ∈ subs, hasKeyB s.data "item" = true ∧
        hasKeyB s.data "type" = true)
    ∧ (∀ (u : String) (msg : JValue) (sub : UmbSubmission),
      handle_ci_umb u msg = .ok (.submitted sub) →
      hasKeyB sub.data "item" = true ∧ hasKeyB sub.data "type" = true) := by
  constructor
  · intro u msg subs h s hs
    obtain ⟨ts, ctx, l, anyF, agg, -, -, hpt, hsub, -, -, -, hitem, htype⟩ :=
      handle_ci_metrics_inv h
    subst hsub
    rcases List.mem_append.mp hs with hsl | hsa
    · obtain ⟨hf, -⟩ := process_tests_ok hpt
      obtain ⟨t, -, hrel⟩ := forall₂_mem_right hf hsl
      obtain ⟨-, -, -, h4, h5⟩ := ci_subtest_inv hrel
      exact ⟨h4, h5⟩
    · simp only [List.mem_singleton] at hsa
      rw [hsa]
      exact ⟨hitem, htype⟩
  · intro u msg sub h
    obtain ⟨mf, artv, tyv, sys, recv, rd, -, -, -, -, hupd, hdisj⟩ :=
      handle_ci_umb_submitted_inv h
    have hrd : hasKeyB rd "item" = true ∧ hasKeyB rd "type" = true := by
      rcases hdisj with ⟨he, hb⟩ | ⟨he, hb⟩ | ⟨he, hb⟩ | ⟨he, hb⟩ |
        ⟨-, -, -, hb⟩
      · obtain ⟨-, hi, ht⟩ := productmd_compose_data_inv hb
        exact ⟨hi, ht (by simp [he, JValue.isNull])⟩
      · obtain ⟨-, hi, ht⟩ := component_version_data_inv hb
        exact ⟨hi, ht (by simp [he, JValue.isNull])⟩
      · obtain ⟨-, hi, ht⟩ := container_image_data_inv hb
        exact ⟨hi, ht (by simp [he, JValue.isNull])⟩
      · exact redhat_module_data_inv hb
      · exact default_artifact_data_inv hb
    constructor
    · exact update_publisher_id_keys hupd
        (hasKeyB_dictSet_of _ _ hrd.1)
    · exact update_publisher_id_keys hupd
        (hasKeyB_dictSet_of _ _ hrd.2)

/-- Witness for C7 (amended): both submissions of the concrete
CI-metrics message `ciMsgW10` and the submission of the unified-bus
message `msgC6w` carry `item` and `type` keys. -/
theorem C7_item_type_amended_witness :
    (hasKeyB aggW10.data "item" = true ∧ hasKeyB aggW10.data "type" = true) ∧
    (hasKeyB subC6w.data "item" = true ∧
      hasKeyB subC6w.data "type" = true) := by
  constructor
  · exact C7_item_type_amended.1 "uuid-x" ciMsgW10 subsW10 rfl aggW10
      (by simp [subsW10])
  · exact C7_item_type_amended.2 "uuid-1" msgC6w subC6w rfl

/-! ## Lemmas about the rpmdiff URL matcher -/

theorem drop_takeWhile_length {α : Type} (p : α → Bool) :
    ∀ l : List α, l.drop (l.takeWhile p).length = l.dropWhile p
  | [] => rfl
  | c :: cs => by
    cases hc : p c <;>
      simp [List.takeWhile, List.dropWhile, hc, drop_takeWhile_length p cs]

theorem endOk_true {l : List Char} (h : endOk l = true) :
    l = [] ∨ l = ['\n'] := by
  cases l with
  | nil => exact Or.inl rfl
  | cons c cs =>
    cases cs with
    | nil =>
      right
      have : c = '\n' := by simpa [endOk] using h
      rw [this]
    | cons d ds => simp [endOk] at h

theorem validTail_digits {ds : List Char} (h1 : ds ≠ [])
    (h2 : ∀ c ∈ ds, c.isDigit = true) : validTail ds = true := by
  unfold validTail
  rw [takeWhile_all h2]
  simp [h1, endOk, List.drop_length]

theorem validTail_digits_slash {ds ds2 : List Char} (h1 : ds ≠ [])
    (h2 : ∀ c ∈ ds, c.isDigit = true) (h3 : ∀ c ∈ ds2, c.isDigit = true) :
    validTail (ds ++ '/' :: ds2) = true := by
  unfold validTail
  rw [takeWhile_middle ds2 (by simp) h2]
  rw [List.drop_left ds ('/' :: ds2)]
  simp [takeWhile_all h3, List.drop_length, endOk, h1,
    takeWhile_middle ds2 (by simp : Char.isDigit '/' = false) h2]

theorem validTail_chars {t : List Char} (h : validTail t = true) :
    ∀ c ∈ t, c.isDigit = true ∨ c = '/' ∨ c = '\n' := by
  intro c hc
  unfold validTail at h
  simp only [Bool.and_eq_true, Bool.or_eq_true] at h
  obtain ⟨-, hrest⟩ := h
  rw [drop_takeWhile_length] at hrest
  have hdec := List.takeWhile_append_dropWhile (p := Char.isDigit) (l := t)
  rw [← hdec] at hc
  rcases List.mem_append.mp hc with htw | hdw
  · exact Or.inl (List.mem_takeWhile_imp htw)
  · rcases hrest with hend | hmatch
    · rcases endOk_true hend with hE | hE <;> rw [hE] at hdw
      · exact absurd hdw (List.not_mem_nil c)
      · simp only [List.mem_singleton] at hdw
        exact Or.inr (Or.inr hdw)
    · split at hmatch
      · rename_i r2 hE
        rw [hE] at hdw
        rw [drop_takeWhile_length] at hmatch
        rcases List.mem_cons.mp hdw with he | hm
        · exact Or.inr (Or.inl he)
        · have hdec2 := List.takeWhile_append_dropWhile
            (p := Char.isDigit) (l := r2)
          rw [← hdec2] at hm
          rcases List.mem_append.mp hm with h2 | h2
          · exact Or.inl (List.mem_takeWhile_imp h2)
          · rcases endOk_true hmatch with hE2 | hE2 <;> rw [hE2] at h2
            · exact absurd h2 (List.not_mem_nil c)
            · simp only [List.mem_singleton] at h2
              exact Or.inr (Or.inr h2)
      · exact absurd hmatch (by simp)

theorem startsRun_some : ∀ {xs t : List Char}, startsRun xs = some t →
    xs = '/' :: 'r' :: 'u' :: 'n' :: '/' :: t := by
  intro xs t h
  unfold startsRun at h
  split at h
  · injection h with h
    rw [h]
  · exact Option.noConfusion h

theorem scanRun_eq_none : ∀ {cs : List Char},
    (∀ a b, cs = a ++ '/' :: 'r' :: 'u' :: 'n' :: '/' :: b →
      validTail b = false) →
    scanRun cs = none := by
  intro cs
  induction cs with
  | nil => intro _; rfl
  | cons c rest ih =>
    intro h
    unfold scanRun
    rw [ih (fun a b he => h (c :: a) b (by rw [he]; rfl))]
    cases hs : startsRun (c :: rest) with
    | none => rfl
    | some tail =>
      have hd := startsRun_some hs
      have hv := h [] tail (by simpa using hd)
      simp [hv]

theorem no_run_in_tail {t : List Char} (hvt : validTail t = true) :
    ∀ a b, ('r' :: 'u' :: 'n' :: '/' :: t) =
      a ++ '/' :: 'r' :: 'u' :: 'n' :: '/' :: b → validTail b = false := by
  intro a b he
  exfalso
  have hr : ∀ c ∈ t, c ≠ 'r' := by
    intro c hc hcr
    rcases validTail_chars hvt c hc with hd | hd | hd <;> simp [hcr] at hd
  match a, he with
  | [], he => simp at he
  | [_], he => simp at he
  | [_, _], he => simp at he
  | [_, _, _], he =>
    simp only [List.cons_append, List.cons.injEq, List.nil_append] at he
    obtain ⟨-, -, -, -, he⟩ := he
    exact hr 'r' (by rw [he]; simp) rfl
  | (_ :: _ :: _ :: _ :: a5), he =>
    simp only [List.cons_append, List.cons.injEq] at he
    obtain ⟨-, -, -, -, he⟩ := he
    exact hr 'r' (by rw [he]; simp) rfl

theorem scanRun_base {t : List Char} (hvt : validTail t = true) :
    scanRun ('/' :: 'r' :: 'u' :: 'n' :: '/' :: t) = some ([], t) := by
  unfold scanRun
  rw [scanRun_eq_none (no_run_in_tail hvt)]
  simp [startsRun, hvt]

theorem scanRun_main {t : List Char} (hvt : validTail t = true) :
    ∀ p : List Char,
      scanRun (p ++ '/' :: 'r' :: 'u' :: 'n' :: '/' :: t) = some (p, t)
  | [] => by simpa using scanRun_base hvt
  | c :: p => by
    rw [List.cons_append]
    unfold scanRun
    rw [scanRun_main hvt p]

theorem data_ne_nil {s : String} (h : s ≠ "") : s.data ≠ [] :=
  fun hd => h (String.ext hd)

theorem rpmdiffCollapse_run {q ds : String} (hq : q ≠ "")
    (hqn : '\n' ∉ q.data) (hds : ds ≠ "")
    (hdig : ∀ c ∈ ds.data, c.isDigit = true) :
    rpmdiffCollapse ("http" ++ q ++ "/run/" ++ ds) =
      some ("http" ++ q ++ "/run/" ++ ds) := by
  have e : ("http" ++ q ++ "/run/" ++ ds).data =
      ('h' :: 't' :: 't' :: 'p' :: q.data) ++
        ('/' :: 'r' :: 'u' :: 'n' :: '/' :: ds.data) := by
    simp [sdata_append]
  have hlen : 4 < ('h' :: 't' :: 't' :: 'p' :: q.data).length := by
    simp only [List.length_cons]
    have := List.length_pos.mpr (data_ne_nil hq)
    omega
  have hcond : prefixB "http".data ('h' :: 't' :: 't' :: 'p' :: q.data) = true
      ∧ 4 < ('h' :: 't' :: 't' :: 'p' :: q.data).length
      ∧ '\n' ∉ ('h' :: 't' :: 't' :: 'p' :: q.data).drop 4 :=
    ⟨by simp [prefixB], hlen, by simpa using hqn⟩
  unfold rpmdiffCollapse
  rw [e, scanRun_main (validTail_digits (data_ne_nil hds) hdig),
    Option.some_bind]
  split
  · refine congrArg some (String.ext ?_)
    simp [sdata_append, takeWhile_all hdig]
  · rename_i hcon
    exact absurd hcond hcon

theorem rpmdiffCollapse_run_result {q ds ds2 : String} (hq : q ≠ "")
    (hqn : '\n' ∉ q.data) (hds : ds ≠ "")
    (hdig : ∀ c ∈ ds.data, c.isDigit = true)
    (hdig2 : ∀ c ∈ ds2.data, c.isDigit = true) :
    rpmdiffCollapse ("http" ++ q ++ "/run/" ++ ds ++ "/" ++ ds2) =
      some ("http" ++ q ++ "/run/" ++ ds) := by
  have e : ("http" ++ q ++ "/run/" ++ ds ++ "/" ++ ds2).data =
      ('h' :: 't' :: 't' :: 'p' :: q.data) ++
        ('/' :: 'r' :: 'u' :: 'n' :: '/' ::
          (ds.data ++ '/' :: ds2.data)) := by
    simp [sdata_append]
  have hlen : 4 < ('h' :: 't' :: 't' :: 'p' :: q.data).length := by
    simp only [List.length_cons]
    have := List.length_pos.mpr (data_ne_nil hq)
    omega
  have hcond : prefixB "http".data ('h' :: 't' :: 't' :: 'p' :: q.data) = true
      ∧ 4 < ('h' :: 't' :: 't' :: 'p' :: q.data).length
      ∧ '\n' ∉ ('h' :: 't' :: 't' :: 'p' :: q.data).drop 4 :=
    ⟨by simp [prefixB], hlen, by simpa using hqn⟩
  unfold rpmdiffCollapse
  rw [e, scanRun_main (validTail_digits_slash (data_ne_nil hds) hdig hdig2),
    Option.some_bind]
  split
  · refine congrArg some (String.ext ?_)
    simp [sdata_append]
    exact takeWhile_middle ds2.data (by decide) hdig
  · rename_i hcon
    exact absurd hcond hcon

theorem bindExc_ok_inv {α β : Type} {e : Except PyErr α}
    {f : α → Except PyErr β} {b : β} (h : e.bind f = .ok b) :
    ∃ a, e = .ok a ∧ f a = .ok b := by
  cases e with
  | error err => exact Except.noConfusion h
  | ok a => exact ⟨a, rfl, h⟩

theorem rdb_obs_inv {msg : JValue} {nm r : String}
    (hn : rdb_testcase_name msg = some nm)
    (hr : rdb_ref_url msg = some r) :
    ∃ m rv tcv, rdb_msg msg = .ok m ∧
      m.index "ref_url" = .ok rv ∧ asStr rv = .ok r ∧
      m.pyGet "testcase" (.obj []) = .ok tcv ∧
      tcv.pyGet "name" (.str "") = .ok (.str nm) := by
  unfold rdb_testcase_name at hn
  unfold rdb_ref_url at hr
  cases hm : rdb_msg msg with
  | error e => simp [hm] at hn
  | ok m =>
    simp only [hm] at hn hr
    cases htc : m.pyGet "testcase" (.obj []) with
    | error e => simp [htc] at hn
    | ok tcv =>
      simp only [htc] at hn
      cases hnm : tcv.pyGet "name" (.str "") with
      | error e => simp [hnm] at hn
      | ok nv =>
        simp only [hnm] at hn
        cases hru : m.index "ref_url" with
        | error e => simp [hru] at hr
        | ok rv =>
          simp only [hru] at hr
          cases has : asStr rv with
          | error e => simp [has] at hr
          | ok s =>
            simp only [has] at hr
            cases nv <;> simp only at hn <;>
              first
              | exact Option.noConfusion hn
              | (injection hn with hn
                 injection hr with hr
                 exact ⟨m, rv, tcv, rfl, hru, hr ▸ has, htc, hn ▸ hnm⟩)

theorem rdb_rpmdiff_valueError {u : String} {ex : Option String}
    {msg : JValue} {nm r : String}
    (hn : rdb_testcase_name msg = some nm)
    (hstart : sStartsWith nm "dist.rpmdiff" = true)
    (hr : rdb_ref_url msg = some r)
    (hcol : rpmdiffCollapse r = none) :
    handle_resultsdb_format u ex msg = .error PyErr.valueError := by
  obtain ⟨m, rv, tcv, hm, hru, has, htc, hnm⟩ := rdb_obs_inv hn hr
  unfold rdb_msg at hm
  obtain ⟨b, hbody, hmsg⟩ := bindExc_ok_inv hm
  unfold handle_resultsdb_format
  simp [bind, Except.bind, hbody, hmsg, hru, htc, hnm, has, hstart, hcol]

theorem mapMExc_ok_forall {α β : Type} {f : α → Except PyErr β}
    {P : β → Prop} (hf : ∀ a b, f a = .ok b → P b) :
    ∀ {l : List α} {bs : List β}, mapMExc f l = .ok bs → ∀ b ∈ bs, P b
  | [], bs, h => by
    unfold mapMExc at h
    injection h with h
    subst h
    intro b hb
    exact absurd hb (List.not_mem_nil b)
  | a :: as, bs, h => by
    unfold mapMExc at h
    simp only [bind, Except.bind] at h
    cases hfa : f a with
    | error e => simp [hfa] at h
    | ok b0 =>
      simp only [hfa] at h
      cases hms : mapMExc f as with
      | error e => simp [hms] at h
      | ok bs0 =>
        simp only [hms, pure, Except.pure] at h
        injection h with h
        subst h
        intro b hb
        rcases List.mem_cons.mp hb with hb | hb
        · exact hb ▸ hf a b0 hfa
        · exact mapMExc_ok_forall hf hms b hb

theorem rdb_rpmdiff_group {u : String} {ex : Option String}
    {msg : JValue} {nm r c : String} {subs : List RdbSubmission}
    (hn : rdb_testcase_name msg = some nm)
    (hstart : sStartsWith nm "dist.rpmdiff" = true)
    (hr : rdb_ref_url msg = some r)
    (hcol : rpmdiffCollapse r = some c)
    (hrun : handle_resultsdb_format u ex msg = .ok subs) :
    ∀ s ∈ subs, s.group_ref_url = .str c := by
  obtain ⟨m, rv, tcv, hm, hru, has, htc, hnm⟩ := rdb_obs_inv hn hr
  unfold rdb_msg at hm
  obtain ⟨b, hbody, hmsg⟩ := bindExc_ok_inv hm
  unfold handle_resultsdb_format at hrun
  simp [bind, Except.bind, pure, Except.pure, hbody, hmsg, hru, htc, hnm,
    has, hstart, hcol] at hrun
  repeat' split at hrun
  all_goals try exact Except.noConfusion hrun
  all_goals
    first
    | (injection hrun with hrun
       subst hrun
       intro s hs
       rw [List.mem_singleton.mp hs])
    | (refine mapMExc_ok_forall ?_ hrun
       intro p s hfp
       simp only [bind, Except.bind] at hfp
       repeat' split at hfp
       all_goals try exact Except.noConfusion hfp
       all_goals (injection hfp with hfp; exact hfp ▸ rfl))

def msgC9w : JValue :=
  mkMsg (.str "/topic/VirtualTopic.eng.resultsdb") (.obj [])
    (.obj [("msg", .obj [
      ("ref_url", .str "http://rd/run/12/3"),
      ("testcase", .obj [("name", .str "dist.rpmdiff.analysis.abicheck")]),
      ("data", .obj [("item", .str "pkg-1-1.el8")]),
      ("outcome", .str "PASSED")])])

def subsC9w : List RdbSubmission :=
  match handle_resultsdb_format "u1" none msgC9w with
  | .ok l => l
  | .error _ => []

def sC9w : RdbSubmission :=
  match handle_resultsdb_format "u1" none msgC9w with
  | .ok (s :: _) => s
  | _ => { testcase := .null, outcome := .null, ref_url := .null,
           data := [], note := .null, group_uuid := "",
           group_ref_url := .null, group_description := none }

/-- **C9.** For resultsdb-format messages whose testcase name starts
with `dist.rpmdiff`: a `ref_url` of the form `http…/run/<id>` (with a
non-empty numeric id) is accepted as is, one of the form
`http…/run/<id>/<result>` is collapsed to the parent run URL
`http…/run/<id>`, and every submission issued for the message carries
the collapsed URL as the group `ref_url`; a `ref_url` that does not
match the pattern makes the handler raise `ValueError`, so no
submission at all is issued. -/
theorem C9_rpmdiff_ref_url :
    (∀ q ds : String, q ≠ "" → '\n' ∉ q.data → ds ≠ "" →
      (∀ ch ∈ ds.data, ch.isDigit = true) →
      rpmdiffCollapse ("http" ++ q ++ "/run/" ++ ds) =
        some ("http" ++ q ++ "/run/" ++ ds))
    ∧ (∀ q ds ds2 : String, q ≠ "" → '\n' ∉ q.data → ds ≠ "" →
      (∀ ch ∈ ds.data, ch.isDigit = true) →
      (∀ ch ∈ ds2.data, ch.isDigit = true) →
      rpmdiffCollapse ("http" ++ q ++ "/run/" ++ ds ++ "/" ++ ds2) =
        some ("http" ++ q ++ "/run/" ++ ds))
    ∧ (∀ (u : String) (ex : Option String) (msg : JValue) (nm r : String),
      rdb_testcase_name msg = some nm →
      sStartsWith nm "dist.rpmdiff" = true →
      rdb_ref_url msg = some r →
      rpmdiffCollapse r = none →
      handle_resultsdb_format u ex msg = .error PyErr.valueError)
    ∧ (∀ (u : String) (ex : Option String) (msg : JValue)
      (nm r c : String) (subs : List RdbSubmission),
      rdb_testcase_name msg = some nm →
      sStartsWith nm "dist.rpmdiff" = true →
      rdb_ref_url msg = some r →
      rpmdiffCollapse r = some c →
      handle_resultsdb_format u ex msg = .ok subs →
      ∀ s ∈ subs, s.group_ref_url = .str c) := by
  refine ⟨?_, ?_, ?_, ?_⟩
  · intro q ds hq hqn hds hdig
    exact rpmdiffCollapse_run hq hqn hds hdig
  · intro q ds ds2 hq hqn hds hdig hdig2
    exact rpmdiffCollapse_run_result hq hqn hds hdig hdig2
  · intro u ex msg nm r hn hstart hr hcol
    exact rdb_rpmdiff_valueError hn hstart hr hcol
  · intro u ex msg nm r c subs hn hstart hr hcol hrun
    exact rdb_rpmdiff_group hn hstart hr hcol hrun

theorem C9_rpmdiff_ref_url_witness :
    rpmdiffCollapse "http://rd/run/12/3" = some "http://rd/run/12" ∧
    sC9w.group_ref_url = JValue.str "http://rd/run/12" := by
  constructor
  · exact C9_rpmdiff_ref_url.2.1 "://rd" "12" "3" (by decide) (by decide)
      (by decide) (by decide) (by decide)
  · exact C9_rpmdiff_ref_url.2.2.2 "u1" none msgC9w
      "dist.rpmdiff.analysis.abicheck" "http://rd/run/12/3"
      "http://rd/run/12" subsC9w rfl (by decide) rfl rfl rfl sC9w
      (by rw [show subsC9w = [sC9w] from rfl]
          exact List.mem_cons_self sC9w [])
